import Mathlib

/-!
Verification of the schema-transcoding core of the go-genai client library.

The Go code manipulates dynamic JSON-like documents (Go values of type
map[string]any).  We embed such dynamic values as the inductive type GoVal,
with GoVal.null standing for the untyped Go nil (a JSON null, an absent
interface value).  Go maps are embedded as association lists (JObj); Go's
in-place map mutation becomes functional update.  Go functions returning
(T, error) become Except String T; a Go panic caused by a failed type
assertion (x.(map[string]any) and the like) is likewise embedded as an
Except.error with a distinguished message, since for the properties at stake
only "the conversion does not succeed, before any network call" matters.
-/

namespace GoGenAI

/-- Dynamic value: the values a Go map of string to any can hold after JSON
unmarshalling.  null models the untyped Go nil / JSON null. -/
inductive GoVal where
  | null : GoVal
  | str : String → GoVal
  | num : Int → GoVal
  | bool : Bool → GoVal
  | arr : List GoVal → GoVal
  | obj : List (String × GoVal) → GoVal

/-- The Go test value == nil on an interface value. -/
def isNull : GoVal → Bool
  | .null => true
  | _ => false

theorem isNull_eq_false {v : GoVal} (h : v ≠ GoVal.null) : isNull v = false := by
  cases v
  · exact absurd rfl h
  all_goals rfl

theorem ne_null_of_isNull_eq_false {v : GoVal} (h : isNull v = false) :
    v ≠ GoVal.null := by
  cases v <;> simp [isNull] at h ⊢

/-- A generic document: the embedding of a Go map[string]any. -/
abbrev JObj := List (String × GoVal)

/-- Go map read m[k]: the first binding of k, if any. -/
def jget : JObj → String → Option GoVal
  | [], _ => none
  | (k', v) :: rest, k => if k' = k then some v else jget rest k

/-- Go map write m[k] = v: replace the binding of k in place, else append. -/
def jset : JObj → String → GoVal → JObj
  | [], k, v => [(k, v)]
  | (k', v') :: rest, k, v =>
      if k' = k then (k, v) :: rest else (k', v') :: jset rest k v

/-- A Go nil result (absent key, or a stored JSON null) becomes none. -/
def denull : Option GoVal → Option GoVal
  | some .null => none
  | x => x

/-- Navigation loop of getValueByPath: current starts as the whole document;
a missing key or a non-mapping intermediate yields Go nil (none). -/
def getGo : Option GoVal → List String → Option GoVal
  | cur, [] => cur
  | some (.obj m), k :: rest => getGo (denull (jget m k)) rest
  | _, _ :: _ => none

/-- getValueByPath from the source: follows string keys through nested
mappings, returning Go nil (none) if any segment is missing or not a
mapping. -/
def getValueByPath (data : JObj) (keys : List String) : Option GoVal :=
  getGo (some (.obj data)) keys

/-- reflect.ValueOf(value).IsZero() on the dynamic values that occur in
documents.  Non-nil slices and maps (the only kind our documents hold after
unmarshalling) are never zero in Go. -/
def isZero : GoVal → Bool
  | .null => true
  | .str s => s = ""
  | .num n => n = 0
  | .bool b => b = false
  | .arr _ => false
  | .obj _ => false

/-- Body of setValueByPath after the nil early-return: walks all keys but the
last, reusing an existing intermediate mapping and replacing a missing or
non-mapping intermediate by a fresh empty mapping, then writes the leaf only
when the value is not the zero value of its type.  (Go panics on an empty
key list when the value is non-zero; the theorems below assume a non-empty
path.) -/
def subMap (data : JObj) (k : String) : JObj :=
  match jget data k with
  | some (.obj m) => m
  | _ => []

def setGo : JObj → List String → GoVal → JObj
  | data, [], _ => data
  | data, [k], v => if isZero v then data else jset data k v
  | data, k :: k' :: rest, v =>
      jset data k (.obj (setGo (subMap data k) (k' :: rest) v))

/-- setValueByPath from the source: a nil value returns immediately with no
mutation; otherwise intermediate mappings are created as needed and the leaf
write is skipped for a zero value. -/
def setValueByPath (data : JObj) (keys : List String) (value : GoVal) : JObj :=
  if isNull value then data else setGo data keys value

/-- Whether the final key of the path exists as an entry of the mapping
reached by navigating the earlier segments through nested mappings. -/
def hasLeafKey : JObj → List String → Bool
  | _, [] => false
  | d, [k] => (jget d k).isSome
  | d, k :: k' :: rest =>
      match jget d k with
      | some (.obj m) => hasLeafKey m (k' :: rest)
      | _ => false

/-- Whether every key of the path, read in order, leads through a nested
mapping. -/
def mapsAlong : JObj → List String → Bool
  | _, [] => true
  | d, k :: rest =>
      match jget d k with
      | some (.obj m) => mapsAlong m rest
      | _ => false

theorem jget_jset_self (d : JObj) (k : String) (v : GoVal) :
    jget (jset d k v) k = some v := by
  induction d with
  | nil => simp [jget, jset]
  | cons hd tl ih =>
      obtain ⟨k', v'⟩ := hd
      by_cases h : k' = k
      · simp [jget, jset, h]
      · simp [jget, jset, h, ih]

theorem hasLeafKey_nil (ks : List String) : hasLeafKey [] ks = false := by
  cases ks with
  | nil => rfl
  | cons k rest => cases rest <;> simp [hasLeafKey, jget]

theorem denull_some {v : GoVal} : denull (some v) = if isNull v then none else some v := by
  cases v <;> rfl

theorem hasLeafKey_subMap {d : JObj} {k k' : String} {rest : List String}
    (h : hasLeafKey d (k :: k' :: rest) = false) :
    hasLeafKey (subMap d k) (k' :: rest) = false := by
  revert h
  simp only [hasLeafKey, subMap]
  cases hj : jget d k with
  | none => intro _; exact hasLeafKey_nil _
  | some w =>
      cases w <;> intro h <;> first
        | exact h
        | exact hasLeafKey_nil _

/-- Non-zero values written by setValueByPath are always readable back at the
written path (the leaf overwrites any prior content). -/
theorem setValueByPath_get_nonzero (d : JObj) (ks : List String) (v : GoVal)
    (hne : ks ≠ []) (hz : isZero v = false) :
    getValueByPath (setValueByPath d ks v) ks = some v := by
  have hnull : isNull v = false := by
    cases v <;> simp [isNull, isZero] at hz ⊢
  rw [setValueByPath, hnull, if_neg (by simp)]
  induction ks generalizing d with
  | nil => exact absurd rfl hne
  | cons k tail ih =>
      cases tail with
      | nil =>
          simp only [setGo, hz, if_false, Bool.false_eq_true]
          simp only [getValueByPath, getGo, jget_jset_self, denull_some, hnull,
            if_false, Bool.false_eq_true]
      | cons k' rest =>
          simp only [setGo, getValueByPath, getGo, jget_jset_self, denull_some,
            isNull, Bool.false_eq_true, if_false]
          exact ih _ (by simp)

/-- A zero value written by setValueByPath never creates the leaf key. -/
theorem setValueByPath_zero_no_create (d : JObj) (ks : List String)
    (v : GoVal) (hz : isZero v = true) (habs : hasLeafKey d ks = false) :
    hasLeafKey (setValueByPath d ks v) ks = false := by
  rw [setValueByPath]
  by_cases hnull : v = GoVal.null
  · simp [hnull, isNull, habs]
  · rw [isNull_eq_false hnull, if_neg (by simp)]
    induction ks generalizing d with
    | nil => simpa [setGo] using habs
    | cons k tail ih =>
        cases tail with
        | nil => simpa [setGo, hz] using habs
        | cons k' rest =>
            simp only [setGo, hasLeafKey, jget_jset_self]
            exact ih _ (hasLeafKey_subMap habs)

/-- C4 (claim theorem below) is stated over these two lemmas; C9 uses the
next three. -/
theorem setValueByPath_null (d : JObj) (ks : List String) :
    setValueByPath d ks GoVal.null = d := by
  simp [setValueByPath, isNull]

/-- Any non-nil write (zero-valued or not) materializes a mapping at every
intermediate segment of the path. -/
theorem setValueByPath_mapsAlong (d : JObj) (ks : List String) (v : GoVal)
    (hnull : v ≠ GoVal.null) :
    mapsAlong (setValueByPath d ks v) ks.dropLast = true := by
  rw [setValueByPath, isNull_eq_false hnull, if_neg (by simp)]
  induction ks generalizing d with
  | nil => simp [setGo, mapsAlong]
  | cons k tail ih =>
      cases tail with
      | nil => simp [mapsAlong]
      | cons k' rest =>
          simp only [List.dropLast, mapsAlong, setGo, jget_jset_self]
          exact ih _

/-- An existing non-mapping value at an intermediate key is replaced by a
fresh empty mapping that the rest of the path is then built inside. -/
theorem setValueByPath_fresh_intermediate (d : JObj) (k k' : String)
    (rest : List String) (v : GoVal) (hnull : v ≠ GoVal.null)
    (hnm : ∀ m : JObj, jget d k ≠ some (.obj m)) :
    jget (setValueByPath d (k :: k' :: rest) v) k =
      some (.obj (setGo [] (k' :: rest) v)) := by
  rw [setValueByPath, isNull_eq_false hnull, if_neg (by simp)]
  have hsub : subMap d k = [] := by
    unfold subMap
    cases hj : jget d k with
    | none => rfl
    | some w =>
        cases w <;> first
          | (exact absurd hj (hnm _))
          | rfl
  simp only [setGo, jget_jset_self, hsub]



/-! ### Entity converters

Go converters have the shape
(ac, fromObject, parentObject) -> (toObject, error).  The client-config
argument ac is threaded through every Go converter but read only by the
resource-name transformers; we pass it only where it is read.  Go mutates
parentObject in place, so our converters return the pair
(toObject, parentObject).  A failed Go type assertion such as
fromX.(map[string]any) panics; we embed it as Except.error castMsg. -/

/-- Message standing for a Go panic from a failed type assertion. -/
def castMsg : String := "panic: interface conversion"

def castObj : GoVal → Except String JObj
  | .obj m => .ok m
  | _ => .error castMsg

def castArr : GoVal → Except String (List GoVal)
  | .arr xs => .ok xs
  | _ => .error castMsg

def castString : GoVal → Except String String
  | .str s => .ok s
  | _ => .error castMsg

/-- The per-field stanza fromX := getValueByPath(..); if fromX != nil then
setValueByPath(dst, toPath, fromX). -/
def copyField (fromObject : JObj) (fromPath : List String) (dst : JObj)
    (toPath : List String) : JObj :=
  match getValueByPath fromObject fromPath with
  | some v => setValueByPath dst toPath v
  | none => dst

/-- The stanza: if getValueByPath(fromObject, [k]) != nil then return the
given not-supported error. -/
def checkAbsent (fromObject : JObj) (k msg : String) : Except String Unit :=
  if (getValueByPath fromObject [k]).isSome then .error msg else .ok ()

/-- A contiguous block of checkAbsent stanzas, in source order. -/
def rejectFields (fromObject : JObj) : List (String × String) → Except String Unit
  | [] => .ok ()
  | (k, msg) :: rest => do
      let _ ← checkAbsent fromObject k msg
      rejectFields fromObject rest

def notSupportedMldev (param : String) : String :=
  param ++ " parameter is not supported in Google AI"

def notSupportedVertex (param : String) : String :=
  param ++ " parameter is not supported in Vertex AI"

/-- applyConverterToSlice from the source: converts each element in order,
returning the first error with no output collection; later elements are not
converted.  Go passes a nil parentObject to the element converter (none of
the element converters writes to it). -/
def applyConverterToSlice (converter : JObj → JObj → Except String (JObj × JObj)) :
    List GoVal → Except String (List JObj)
  | [] => .ok []
  | x :: xs => do
      let m ← castObj x
      let (o, _) ← converter m []
      let os ← applyConverterToSlice converter xs
      .ok (o :: os)

/-- Nested-entity stanza writing the converted entity into toObject:
fromX, err = conv(ac, fromX.(map[string]any), toObject);
setValueByPath(toObject, toPath, fromX).  The nested converter receives
toObject as its parentObject, so the possibly-mutated toObject is threaded
back. -/
def convertObjField (conv : JObj → JObj → Except String (JObj × JObj))
    (fromObject : JObj) (k : String) (toObject : JObj) (toPath : List String) :
    Except String JObj :=
  match getValueByPath fromObject [k] with
  | none => .ok toObject
  | some v => do
      let m ← castObj v
      let (res, toObject) ← conv m toObject
      .ok (setValueByPath toObject toPath (.obj res))

/-- Same as convertObjField but the result is written into parentObject
(relocated field).  Returns (toObject, parentObject). -/
def convertObjFieldToParent (conv : JObj → JObj → Except String (JObj × JObj))
    (fromObject : JObj) (k : String) (toObject parentObject : JObj)
    (toPath : List String) : Except String (JObj × JObj) :=
  match getValueByPath fromObject [k] with
  | none => .ok (toObject, parentObject)
  | some v => do
      let m ← castObj v
      let (res, toObject) ← conv m toObject
      .ok (toObject, setValueByPath parentObject toPath (.obj res))

/-- Sequence-entity stanza writing into toObject:
fromXs, err = applyConverterToSlice(ac, fromXs.([]any), conv);
setValueByPath(toObject, toPath, fromXs). -/
def convertSliceField (conv : JObj → JObj → Except String (JObj × JObj))
    (fromObject : JObj) (k : String) (toObject : JObj) (toPath : List String) :
    Except String JObj :=
  match getValueByPath fromObject [k] with
  | none => .ok toObject
  | some v => do
      let xs ← castArr v
      let outs ← applyConverterToSlice conv xs
      .ok (setValueByPath toObject toPath (.arr (outs.map .obj)))

/-- Same as convertSliceField but writing into parentObject. -/
def convertSliceFieldToParent (conv : JObj → JObj → Except String (JObj × JObj))
    (fromObject : JObj) (k : String) (parentObject : JObj)
    (toPath : List String) : Except String JObj :=
  match getValueByPath fromObject [k] with
  | none => .ok parentObject
  | some v => do
      let xs ← castArr v
      let outs ← applyConverterToSlice conv xs
      .ok (setValueByPath parentObject toPath (.arr (outs.map .obj)))

/-! ### Client configuration and resource-name transformers -/

inductive Backend where
  | vertexAI : Backend
  | googleAI : Backend
deriving DecidableEq, Repr

structure ApiConfig where
  backend : Backend
  project : String
  location : String
deriving Repr

/-- Go strings.HasPrefix(s, pre), computed over the character lists so that
concrete instances reduce. -/
def goHasPre (pre s : String) : Bool :=
  pre.data.isPrefixOf s.data

/-- The characters of s before and after the first slash. -/
def breakSlash : List Char → List Char × List Char
  | [] => ([], [])
  | c :: cs =>
      if c = '/' then ([], cs)
      else
        let p := breakSlash cs
        (c :: p.1, p.2)

/-- Go strings.SplitN(s, "/", 2): the segment before the first slash and the
remainder. -/
def splitN2Slash (s : String) : String × String :=
  let p := breakSlash s.data
  (⟨p.1⟩, ⟨p.2⟩)

/-- tResourceName from the source (pure; never fails). -/
def tResourceName (ac : ApiConfig) (resourceName resourcePfx : String) : String :=
  if ac.backend = .vertexAI then
    if goHasPre "projects/" resourceName then
      resourceName
    else if goHasPre "locations/" resourceName then
      "projects/" ++ ac.project ++ "/" ++ resourceName
    else if goHasPre (resourcePfx ++ "/") resourceName then
      "projects/" ++ ac.project ++ "/locations/" ++ ac.location ++ "/" ++ resourceName
    else
      "projects/" ++ ac.project ++ "/locations/" ++ ac.location ++ "/" ++
        resourcePfx ++ "/" ++ resourceName
  else
    if goHasPre (resourcePfx ++ "/") resourceName then
      resourceName
    else
      resourcePfx ++ "/" ++ resourceName

/-- tCachedContentName: the Go name.(string) assertion then tResourceName. -/
def tCachedContentName (ac : ApiConfig) (name : GoVal) : Except String String := do
  let s ← castString name
  .ok (tResourceName ac s "cachedContents")

/-- tModel from the source, on string input. -/
def tModel (ac : ApiConfig) (model : String) : Except String String :=
  if model = "" then .error "tModel: model is empty"
  else if ac.backend = .vertexAI then
    if goHasPre "projects/" model || goHasPre "models/" model ||
        goHasPre "publishers/" model then
      .ok model
    else if model.data.contains '/' then
      let parts := splitN2Slash model
      .ok ("publishers/" ++ parts.1 ++ "/models/" ++ parts.2)
    else
      .ok ("publishers/google/models/" ++ model)
  else
    if goHasPre "models/" model || goHasPre "tunedModels/" model then
      .ok model
    else
      .ok ("models/" ++ model)

/-- tModelFullName from the source, on string input. -/
def tModelFullName (ac : ApiConfig) (model : String) : Except String String :=
  match tModel ac model with
  | .error e => .error ("tModelFullName: " ++ e)
  | .ok name =>
      if goHasPre "publishers/" name ∧ ac.backend = .vertexAI then
        .ok ("projects/" ++ ac.project ++ "/locations/" ++ ac.location ++ "/" ++ name)
      else if goHasPre "models/" name ∧ ac.backend = .vertexAI then
        .ok ("projects/" ++ ac.project ++ "/locations/" ++ ac.location ++
          "/publishers/google/" ++ name)
      else
        .ok name

/-! ### Request-direction converters (models.go) -/

def partToMldev (fromObject parentObject : JObj) : Except String (JObj × JObj) := do
  let _ ← checkAbsent fromObject "videoMetadata" (notSupportedMldev "video_metadata")
  let toObject : JObj := []
  let toObject := copyField fromObject ["thought"] toObject ["thought"]
  let toObject := copyField fromObject ["codeExecutionResult"] toObject ["codeExecutionResult"]
  let toObject := copyField fromObject ["executableCode"] toObject ["executableCode"]
  let toObject := copyField fromObject ["fileData"] toObject ["fileData"]
  let toObject := copyField fromObject ["functionCall"] toObject ["functionCall"]
  let toObject := copyField fromObject ["functionResponse"] toObject ["functionResponse"]
  let toObject := copyField fromObject ["inlineData"] toObject ["inlineData"]
  let toObject := copyField fromObject ["text"] toObject ["text"]
  .ok (toObject, parentObject)

def partToVertex (fromObject parentObject : JObj) : Except String (JObj × JObj) := do
  let toObject : JObj := []
  let toObject := copyField fromObject ["videoMetadata"] toObject ["videoMetadata"]
  let _ ← checkAbsent fromObject "thought" (notSupportedVertex "thought")
  let toObject := copyField fromObject ["codeExecutionResult"] toObject ["codeExecutionResult"]
  let toObject := copyField fromObject ["executableCode"] toObject ["executableCode"]
  let toObject := copyField fromObject ["fileData"] toObject ["fileData"]
  let toObject := copyField fromObject ["functionCall"] toObject ["functionCall"]
  let toObject := copyField fromObject ["functionResponse"] toObject ["functionResponse"]
  let toObject := copyField fromObject ["inlineData"] toObject ["inlineData"]
  let toObject := copyField fromObject ["text"] toObject ["text"]
  .ok (toObject, parentObject)

def contentToMldev (fromObject parentObject : JObj) : Except String (JObj × JObj) := do
  let toObject : JObj := []
  let toObject ← convertSliceField partToMldev fromObject "parts" toObject ["parts"]
  let toObject := copyField fromObject ["role"] toObject ["role"]
  .ok (toObject, parentObject)

def contentToVertex (fromObject parentObject : JObj) : Except String (JObj × JObj) := do
  let toObject : JObj := []
  let toObject ← convertSliceField partToVertex fromObject "parts" toObject ["parts"]
  let toObject := copyField fromObject ["role"] toObject ["role"]
  .ok (toObject, parentObject)

/-- The fifteen Schema constraint fields rejected for the Google AI backend,
in source check order, with the exact error of each. -/
def mldevSchemaRejections : List (String × String) :=
  [("minItems", notSupportedMldev "min_items"),
   ("example", notSupportedMldev "example"),
   ("propertyOrdering", notSupportedMldev "property_ordering"),
   ("pattern", notSupportedMldev "pattern"),
   ("minimum", notSupportedMldev "minimum"),
   ("default", notSupportedMldev "default"),
   ("anyOf", notSupportedMldev "any_of"),
   ("maxLength", notSupportedMldev "max_length"),
   ("title", notSupportedMldev "title"),
   ("minLength", notSupportedMldev "min_length"),
   ("minProperties", notSupportedMldev "min_properties"),
   ("maxItems", notSupportedMldev "max_items"),
   ("maximum", notSupportedMldev "maximum"),
   ("nullable", notSupportedMldev "nullable"),
   ("maxProperties", notSupportedMldev "max_properties")]

def schemaToMldev (fromObject parentObject : JObj) : Except String (JObj × JObj) := do
  let _ ← rejectFields fromObject mldevSchemaRejections
  let toObject : JObj := []
  let toObject := copyField fromObject ["type"] toObject ["type"]
  let toObject := copyField fromObject ["description"] toObject ["description"]
  let toObject := copyField fromObject ["enum"] toObject ["enum"]
  let toObject := copyField fromObject ["format"] toObject ["format"]
  let toObject := copyField fromObject ["items"] toObject ["items"]
  let toObject := copyField fromObject ["properties"] toObject ["properties"]
  let toObject := copyField fromObject ["required"] toObject ["required"]
  .ok (toObject, parentObject)

def schemaToVertex (fromObject parentObject : JObj) : Except String (JObj × JObj) := do
  let toObject : JObj := []
  let toObject := copyField fromObject ["minItems"] toObject ["minItems"]
  let toObject := copyField fromObject ["example"] toObject ["example"]
  let toObject := copyField fromObject ["propertyOrdering"] toObject ["propertyOrdering"]
  let toObject := copyField fromObject ["pattern"] toObject ["pattern"]
  let toObject := copyField fromObject ["minimum"] toObject ["minimum"]
  let toObject := copyField fromObject ["default"] toObject ["default"]
  let toObject := copyField fromObject ["anyOf"] toObject ["anyOf"]
  let toObject := copyField fromObject ["maxLength"] toObject ["maxLength"]
  let toObject := copyField fromObject ["title"] toObject ["title"]
  let toObject := copyField fromObject ["minLength"] toObject ["minLength"]
  let toObject := copyField fromObject ["minProperties"] toObject ["minProperties"]
  let toObject := copyField fromObject ["maxItems"] toObject ["maxItems"]
  let toObject := copyField fromObject ["maximum"] toObject ["maximum"]
  let toObject := copyField fromObject ["nullable"] toObject ["nullable"]
  let toObject := copyField fromObject ["maxProperties"] toObject ["maxProperties"]
  let toObject := copyField fromObject ["type"] toObject ["type"]
  let toObject := copyField fromObject ["description"] toObject ["description"]
  let toObject := copyField fromObject ["enum"] toObject ["enum"]
  let toObject := copyField fromObject ["format"] toObject ["format"]
  let toObject := copyField fromObject ["items"] toObject ["items"]
  let toObject := copyField fromObject ["properties"] toObject ["properties"]
  let toObject := copyField fromObject ["required"] toObject ["required"]
  .ok (toObject, parentObject)

def safetySettingToMldev (fromObject parentObject : JObj) : Except String (JObj × JObj) := do
  let _ ← checkAbsent fromObject "method" (notSupportedMldev "method")
  let toObject : JObj := []
  let toObject := copyField fromObject ["category"] toObject ["category"]
  let toObject := copyField fromObject ["threshold"] toObject ["threshold"]
  .ok (toObject, parentObject)

def safetySettingToVertex (fromObject parentObject : JObj) : Except String (JObj × JObj) := do
  let toObject : JObj := []
  let toObject := copyField fromObject ["method"] toObject ["method"]
  let toObject := copyField fromObject ["category"] toObject ["category"]
  let toObject := copyField fromObject ["threshold"] toObject ["threshold"]
  .ok (toObject, parentObject)

def functionDeclarationToMldev (fromObject parentObject : JObj) :
    Except String (JObj × JObj) := do
  let _ ← checkAbsent fromObject "response" (notSupportedMldev "response")
  let toObject : JObj := []
  let toObject := copyField fromObject ["description"] toObject ["description"]
  let toObject := copyField fromObject ["name"] toObject ["name"]
  let toObject := copyField fromObject ["parameters"] toObject ["parameters"]
  .ok (toObject, parentObject)

def functionDeclarationToVertex (fromObject parentObject : JObj) :
    Except String (JObj × JObj) := do
  let toObject : JObj := []
  let toObject ← convertObjField schemaToVertex fromObject "response" toObject ["response"]
  let toObject := copyField fromObject ["description"] toObject ["description"]
  let toObject := copyField fromObject ["name"] toObject ["name"]
  let toObject := copyField fromObject ["parameters"] toObject ["parameters"]
  .ok (toObject, parentObject)

def googleSearchToMldev (_fromObject parentObject : JObj) : Except String (JObj × JObj) :=
  .ok ([], parentObject)

def googleSearchToVertex (_fromObject parentObject : JObj) : Except String (JObj × JObj) :=
  .ok ([], parentObject)

def dynamicRetrievalConfigToMldev (fromObject parentObject : JObj) :
    Except String (JObj × JObj) := do
  let toObject : JObj := []
  let toObject := copyField fromObject ["mode"] toObject ["mode"]
  let toObject := copyField fromObject ["dynamicThreshold"] toObject ["dynamicThreshold"]
  .ok (toObject, parentObject)

def dynamicRetrievalConfigToVertex (fromObject parentObject : JObj) :
    Except String (JObj × JObj) := do
  let toObject : JObj := []
  let toObject := copyField fromObject ["mode"] toObject ["mode"]
  let toObject := copyField fromObject ["dynamicThreshold"] toObject ["dynamicThreshold"]
  .ok (toObject, parentObject)

def googleSearchRetrievalToMldev (fromObject parentObject : JObj) :
    Except String (JObj × JObj) := do
  let toObject : JObj := []
  let toObject ← convertObjField dynamicRetrievalConfigToMldev fromObject
    "dynamicRetrievalConfig" toObject ["dynamicRetrievalConfig"]
  .ok (toObject, parentObject)

def googleSearchRetrievalToVertex (fromObject parentObject : JObj) :
    Except String (JObj × JObj) := do
  let toObject : JObj := []
  let toObject ← convertObjField dynamicRetrievalConfigToVertex fromObject
    "dynamicRetrievalConfig" toObject ["dynamicRetrievalConfig"]
  .ok (toObject, parentObject)

def toolToMldev (fromObject parentObject : JObj) : Except String (JObj × JObj) := do
  let toObject : JObj := []
  let toObject ← convertSliceField functionDeclarationToMldev fromObject
    "functionDeclarations" toObject ["functionDeclarations"]
  let _ ← checkAbsent fromObject "retrieval" (notSupportedMldev "retrieval")
  let toObject ← convertObjField googleSearchToMldev fromObject "googleSearch"
    toObject ["googleSearch"]
  let toObject ← convertObjField googleSearchRetrievalToMldev fromObject
    "googleSearchRetrieval" toObject ["googleSearchRetrieval"]
  let toObject := copyField fromObject ["codeExecution"] toObject ["codeExecution"]
  .ok (toObject, parentObject)

def toolToVertex (fromObject parentObject : JObj) : Except String (JObj × JObj) := do
  let toObject : JObj := []
  let toObject ← convertSliceField functionDeclarationToVertex fromObject
    "functionDeclarations" toObject ["functionDeclarations"]
  let toObject := copyField fromObject ["retrieval"] toObject ["retrieval"]
  let toObject ← convertObjField googleSearchToVertex fromObject "googleSearch"
    toObject ["googleSearch"]
  let toObject ← convertObjField googleSearchRetrievalToVertex fromObject
    "googleSearchRetrieval" toObject ["googleSearchRetrieval"]
  let toObject := copyField fromObject ["codeExecution"] toObject ["codeExecution"]
  .ok (toObject, parentObject)

def functionCallingConfigToMldev (fromObject parentObject : JObj) :
    Except String (JObj × JObj) := do
  let toObject : JObj := []
  let toObject := copyField fromObject ["mode"] toObject ["mode"]
  let toObject := copyField fromObject ["allowedFunctionNames"] toObject ["allowedFunctionNames"]
  .ok (toObject, parentObject)

def functionCallingConfigToVertex (fromObject parentObject : JObj) :
    Except String (JObj × JObj) := do
  let toObject : JObj := []
  let toObject := copyField fromObject ["mode"] toObject ["mode"]
  let toObject := copyField fromObject ["allowedFunctionNames"] toObject ["allowedFunctionNames"]
  .ok (toObject, parentObject)

def toolConfigToMldev (fromObject parentObject : JObj) : Except String (JObj × JObj) := do
  let toObject : JObj := []
  let toObject ← convertObjField functionCallingConfigToMldev fromObject
    "functionCallingConfig" toObject ["functionCallingConfig"]
  .ok (toObject, parentObject)

def toolConfigToVertex (fromObject parentObject : JObj) : Except String (JObj × JObj) := do
  let toObject : JObj := []
  let toObject ← convertObjField functionCallingConfigToVertex fromObject
    "functionCallingConfig" toObject ["functionCallingConfig"]
  .ok (toObject, parentObject)

def prebuiltVoiceConfigToMldev (fromObject parentObject : JObj) :
    Except String (JObj × JObj) := do
  let toObject : JObj := []
  let toObject := copyField fromObject ["voiceName"] toObject ["voiceName"]
  .ok (toObject, parentObject)

def prebuiltVoiceConfigToVertex (fromObject parentObject : JObj) :
    Except String (JObj × JObj) := do
  let toObject : JObj := []
  let toObject := copyField fromObject ["voiceName"] toObject ["voiceName"]
  .ok (toObject, parentObject)

def voiceConfigToMldev (fromObject parentObject : JObj) : Except String (JObj × JObj) := do
  let toObject : JObj := []
  let toObject ← convertObjField prebuiltVoiceConfigToMldev fromObject
    "prebuiltVoiceConfig" toObject ["prebuiltVoiceConfig"]
  .ok (toObject, parentObject)

def voiceConfigToVertex (fromObject parentObject : JObj) : Except String (JObj × JObj) := do
  let toObject : JObj := []
  let toObject ← convertObjField prebuiltVoiceConfigToVertex fromObject
    "prebuiltVoiceConfig" toObject ["prebuiltVoiceConfig"]
  .ok (toObject, parentObject)

def speechConfigToMldev (fromObject parentObject : JObj) : Except String (JObj × JObj) := do
  let toObject : JObj := []
  let toObject ← convertObjField voiceConfigToMldev fromObject "voiceConfig"
    toObject ["voiceConfig"]
  .ok (toObject, parentObject)

def speechConfigToVertex (fromObject parentObject : JObj) : Except String (JObj × JObj) := do
  let toObject : JObj := []
  let toObject ← convertObjField voiceConfigToVertex fromObject "voiceConfig"
    toObject ["voiceConfig"]
  .ok (toObject, parentObject)

/-- The cachedContent stanza of generateContentConfigToMldev: the
tCachedContentName transform, written into parentObject. -/
def setCachedContentField (ac : ApiConfig) (fromObject parentObject : JObj) :
    Except String JObj :=
  match getValueByPath fromObject ["cachedContent"] with
  | none => .ok parentObject
  | some v => do
      let name ← tCachedContentName ac v
      .ok (setValueByPath parentObject ["cachedContent"] (.str name))

/-- generateContentConfigToMldev from the source, field stanzas in source
order.  tContent, tSchema, tSpeechConfig, tTool and tTools are identity
transformers in the source and are noted where they occur.  The
applyItemTransformerToSlice(ac, tools, tTool) pre-pass maps the identity
transformer over the slice (its error return is dropped by the source). -/
def generateContentConfigToMldev (ac : ApiConfig) (fromObject parentObject : JObj) :
    Except String (JObj × JObj) := do
  let toObject : JObj := []
  -- systemInstruction: tContent (identity), then contentToMldev, relocated to parent
  let (toObject, parentObject) ← convertObjFieldToParent contentToMldev fromObject
    "systemInstruction" toObject parentObject ["systemInstruction"]
  let toObject := copyField fromObject ["temperature"] toObject ["temperature"]
  let toObject := copyField fromObject ["topP"] toObject ["topP"]
  let toObject := copyField fromObject ["topK"] toObject ["topK"]
  let toObject := copyField fromObject ["candidateCount"] toObject ["candidateCount"]
  let toObject := copyField fromObject ["maxOutputTokens"] toObject ["maxOutputTokens"]
  let toObject := copyField fromObject ["stopSequences"] toObject ["stopSequences"]
  let _ ← checkAbsent fromObject "responseLogprobs" (notSupportedMldev "response_logprobs")
  let _ ← checkAbsent fromObject "logprobs" (notSupportedMldev "logprobs")
  let toObject := copyField fromObject ["presencePenalty"] toObject ["presencePenalty"]
  let toObject := copyField fromObject ["frequencyPenalty"] toObject ["frequencyPenalty"]
  let toObject := copyField fromObject ["seed"] toObject ["seed"]
  let toObject := copyField fromObject ["responseMimeType"] toObject ["responseMimeType"]
  -- responseSchema: tSchema (identity), then schemaToMldev
  let toObject ← convertObjField schemaToMldev fromObject "responseSchema"
    toObject ["responseSchema"]
  let _ ← checkAbsent fromObject "routingConfig" (notSupportedMldev "routing_config")
  let parentObject ← convertSliceFieldToParent safetySettingToMldev fromObject
    "safetySettings" parentObject ["safetySettings"]
  -- tools: applyItemTransformerToSlice with tTool and tTools are identities
  let parentObject ← convertSliceFieldToParent toolToMldev fromObject
    "tools" parentObject ["tools"]
  let (toObject, parentObject) ← convertObjFieldToParent toolConfigToMldev fromObject
    "toolConfig" toObject parentObject ["toolConfig"]
  let parentObject ← setCachedContentField ac fromObject parentObject
  let toObject := copyField fromObject ["responseModalities"] toObject ["responseModalities"]
  let _ ← checkAbsent fromObject "mediaResolution" (notSupportedMldev "media_resolution")
  -- speechConfig: tSpeechConfig (identity), then speechConfigToMldev
  let toObject ← convertObjField speechConfigToMldev fromObject "speechConfig"
    toObject ["speechConfig"]
  .ok (toObject, parentObject)


/-! ### Error analysis of the Mldev converter chain -/

/-- Whether a field is provided in a document (the Go != nil test on
getValueByPath). -/
def fieldPresent (d : JObj) (k : String) : Bool :=
  (getValueByPath d [k]).isSome

/-- The message of the first rejected field present in the document,
in check order. -/
def firstReject (d : JObj) : List (String × String) → Option String
  | [] => none
  | (k, m) :: rest => if fieldPresent d k then some m else firstReject d rest

theorem exc_bind_ok {α β : Type} (a : α) (f : α → Except String β) :
    (Except.ok a >>= f) = f a := rfl

theorem exc_bind_error {α β : Type} (e : String) (f : α → Except String β) :
    ((Except.error e : Except String α) >>= f) = .error e := rfl

theorem exc_pure {α : Type} (a : α) : (pure a : Except String α) = .ok a := rfl

theorem bind_ok_ex {α β : Type} {x : Except String α} {f : α → Except String β}
    {b : β} (h : x >>= f = .ok b) : ∃ a, x = .ok a ∧ f a = .ok b := by
  cases x with
  | error e => simp [exc_bind_error] at h
  | ok a => exact ⟨a, rfl, h⟩

theorem bind_err_cases {α β : Type} {x : Except String α}
    {f : α → Except String β} {e : String} (h : x >>= f = .error e) :
    x = .error e ∨ ∃ a, x = .ok a ∧ f a = .error e := by
  cases x with
  | error e' => left; rw [exc_bind_error] at h; rw [Except.error.injEq] at h ⊢; exact h
  | ok a => right; exact ⟨a, rfl, h⟩

theorem castObj_err {v : GoVal} {e : String} (h : castObj v = .error e) :
    e = castMsg := by
  cases v <;> simp [castObj] at h <;> exact h.symm

theorem castArr_err {v : GoVal} {e : String} (h : castArr v = .error e) :
    e = castMsg := by
  cases v <;> simp [castArr] at h <;> exact h.symm

theorem castString_err {v : GoVal} {e : String} (h : castString v = .error e) :
    e = castMsg := by
  cases v <;> simp [castString] at h <;> exact h.symm

theorem checkAbsent_err {d : JObj} {k m e : String}
    (h : checkAbsent d k m = .error e) : e = m ∧ fieldPresent d k = true := by
  unfold checkAbsent at h
  by_cases hp : (getValueByPath d [k]).isSome
  · rw [if_pos hp] at h
    exact ⟨(Except.error.injEq _ _).mp h.symm, hp⟩
  · rw [if_neg hp] at h
    exact absurd h (by simp)

theorem checkAbsent_ok {d : JObj} {k m : String} {u : Unit}
    (h : checkAbsent d k m = .ok u) : fieldPresent d k = false := by
  unfold checkAbsent at h
  by_cases hp : (getValueByPath d [k]).isSome
  · rw [if_pos hp] at h; exact absurd h (by simp)
  · rw [if_neg hp] at h; simpa [fieldPresent] using hp

theorem checkAbsent_of_present {d : JObj} {k : String} (m : String)
    (h : fieldPresent d k = true) : checkAbsent d k m = .error m := by
  unfold checkAbsent
  rw [if_pos]
  exact h

theorem checkAbsent_of_absent {d : JObj} {k : String} (m : String)
    (h : fieldPresent d k = false) : checkAbsent d k m = .ok () := by
  unfold checkAbsent
  rw [if_neg]
  simp only [fieldPresent] at h
  simp [h]

theorem rejectFields_eq_firstReject (d : JObj) (l : List (String × String)) :
    rejectFields d l =
      match firstReject d l with
      | some m => .error m
      | none => .ok () := by
  induction l with
  | nil => rfl
  | cons q rest ih =>
      obtain ⟨k, m⟩ := q
      by_cases hp : fieldPresent d k
      · simp [rejectFields, firstReject, hp, checkAbsent_of_present m hp, exc_bind_error]
      · simp only [Bool.not_eq_true] at hp
        simp [rejectFields, firstReject, hp, checkAbsent_of_absent m hp, exc_bind_ok, ih]

theorem firstReject_none_iff (d : JObj) (l : List (String × String)) :
    firstReject d l = none ↔ ∀ q ∈ l, fieldPresent d q.1 = false := by
  induction l with
  | nil => simp [firstReject]
  | cons q rest ih =>
      obtain ⟨k, m⟩ := q
      by_cases hp : fieldPresent d k
      · simp [firstReject, hp]
      · simp only [Bool.not_eq_true] at hp
        simp [firstReject, hp, ih]

theorem firstReject_some_mem {d : JObj} {l : List (String × String)} {e : String}
    (h : firstReject d l = some e) :
    ∃ q ∈ l, e = q.2 ∧ fieldPresent d q.1 = true := by
  induction l with
  | nil => simp [firstReject] at h
  | cons q rest ih =>
      obtain ⟨k, m⟩ := q
      by_cases hp : fieldPresent d k
      · rw [firstReject, if_pos hp, Option.some.injEq] at h
        exact ⟨(k, m), by simp, h.symm, hp⟩
      · rw [firstReject, if_neg hp] at h
        obtain ⟨q', hq', he, hp'⟩ := ih h
        exact ⟨q', by simp [hq'], he, hp'⟩

/-- Error messages of applyConverterToSlice: a cast panic or an element
converter error. -/
theorem applyConverterToSlice_err {conv : JObj → JObj → Except String (JObj × JObj)}
    {S : List String} (hc : ∀ d p e, conv d p = .error e → e ∈ S) :
    ∀ {xs : List GoVal} {e : String},
      applyConverterToSlice conv xs = .error e → e ∈ castMsg :: S := by
  intro xs
  induction xs with
  | nil => intro e h; simp [applyConverterToSlice] at h
  | cons x rest ih =>
      intro e h
      unfold applyConverterToSlice at h
      rcases bind_err_cases h with h1 | ⟨m, _, h⟩
      · simp [castObj_err h1]
      rcases bind_err_cases h with h1 | ⟨a, _, h⟩
      · exact List.mem_cons_of_mem _ (hc _ _ _ h1)
      obtain ⟨o, p'⟩ := a
      rcases bind_err_cases h with h1 | ⟨os, _, h⟩
      · exact ih h1
      · simp [exc_pure] at h

theorem convertObjField_err {conv : JObj → JObj → Except String (JObj × JObj)}
    {S : List String} (hc : ∀ d p e, conv d p = .error e → e ∈ S)
    {d t : JObj} {k : String} {path : List String} {e : String}
    (h : convertObjField conv d k t path = .error e) : e ∈ castMsg :: S := by
  unfold convertObjField at h
  split at h
  · simp at h
  rcases bind_err_cases h with h1 | ⟨m, _, h⟩
  · simp [castObj_err h1]
  rcases bind_err_cases h with h1 | ⟨a, _, h⟩
  · exact List.mem_cons_of_mem _ (hc _ _ _ h1)
  obtain ⟨r, t'⟩ := a
  simp at h

theorem convertObjFieldToParent_err {conv : JObj → JObj → Except String (JObj × JObj)}
    {S : List String} (hc : ∀ d p e, conv d p = .error e → e ∈ S)
    {d t p : JObj} {k : String} {path : List String} {e : String}
    (h : convertObjFieldToParent conv d k t p path = .error e) :
    e ∈ castMsg :: S := by
  unfold convertObjFieldToParent at h
  split at h
  · simp at h
  rcases bind_err_cases h with h1 | ⟨m, _, h⟩
  · simp [castObj_err h1]
  rcases bind_err_cases h with h1 | ⟨a, _, h⟩
  · exact List.mem_cons_of_mem _ (hc _ _ _ h1)
  obtain ⟨r, t'⟩ := a
  simp at h

theorem convertSliceField_err {conv : JObj → JObj → Except String (JObj × JObj)}
    {S : List String} (hc : ∀ d p e, conv d p = .error e → e ∈ S)
    {d t : JObj} {k : String} {path : List String} {e : String}
    (h : convertSliceField conv d k t path = .error e) : e ∈ castMsg :: S := by
  unfold convertSliceField at h
  split at h
  · simp at h
  rcases bind_err_cases h with h1 | ⟨xs, _, h⟩
  · simp [castArr_err h1]
  rcases bind_err_cases h with h1 | ⟨os, _, h⟩
  · exact applyConverterToSlice_err hc h1
  · simp at h

theorem convertSliceFieldToParent_err {conv : JObj → JObj → Except String (JObj × JObj)}
    {S : List String} (hc : ∀ d p e, conv d p = .error e → e ∈ S)
    {d p : JObj} {k : String} {path : List String} {e : String}
    (h : convertSliceFieldToParent conv d k p path = .error e) :
    e ∈ castMsg :: S := by
  unfold convertSliceFieldToParent at h
  split at h
  · simp at h
  rcases bind_err_cases h with h1 | ⟨xs, _, h⟩
  · simp [castArr_err h1]
  rcases bind_err_cases h with h1 | ⟨os, _, h⟩
  · exact applyConverterToSlice_err hc h1
  · simp at h

theorem partToMldev_err {d p : JObj} {e : String}
    (h : partToMldev d p = .error e) : e ∈ [notSupportedMldev "video_metadata"] := by
  unfold partToMldev at h
  rcases bind_err_cases h with h1 | ⟨u, _, h⟩
  · simp [(checkAbsent_err h1).1]
  · simp at h

theorem contentToMldev_err {d p : JObj} {e : String}
    (h : contentToMldev d p = .error e) :
    e ∈ [castMsg, notSupportedMldev "video_metadata"] := by
  unfold contentToMldev at h
  rcases bind_err_cases h with h1 | ⟨t, _, h⟩
  · simpa using convertSliceField_err (fun _ _ _ hh => partToMldev_err hh) h1
  · simp at h

theorem schemaToMldev_err {d p : JObj} {e : String}
    (h : schemaToMldev d p = .error e) :
    e ∈ mldevSchemaRejections.map Prod.snd := by
  unfold schemaToMldev at h
  rcases bind_err_cases h with h1 | ⟨u, _, h⟩
  · rw [rejectFields_eq_firstReject] at h1
    cases hf : firstReject d mldevSchemaRejections with
    | none => rw [hf] at h1; simp at h1
    | some m =>
        rw [hf] at h1
        rw [Except.error.injEq] at h1
        obtain ⟨q, hq, he, _⟩ := firstReject_some_mem hf
        subst h1
        exact he ▸ List.mem_map_of_mem Prod.snd hq
  · simp at h

theorem safetySettingToMldev_err {d p : JObj} {e : String}
    (h : safetySettingToMldev d p = .error e) :
    e ∈ [notSupportedMldev "method"] := by
  unfold safetySettingToMldev at h
  rcases bind_err_cases h with h1 | ⟨u, _, h⟩
  · simp [(checkAbsent_err h1).1]
  · simp at h

theorem functionDeclarationToMldev_err {d p : JObj} {e : String}
    (h : functionDeclarationToMldev d p = .error e) :
    e ∈ [notSupportedMldev "response"] := by
  unfold functionDeclarationToMldev at h
  rcases bind_err_cases h with h1 | ⟨u, _, h⟩
  · simp [(checkAbsent_err h1).1]
  · simp at h

theorem googleSearchToMldev_err {d p : JObj} {e : String}
    (h : googleSearchToMldev d p = .error e) : e ∈ ([] : List String) := by
  simp [googleSearchToMldev] at h

theorem dynamicRetrievalConfigToMldev_err {d p : JObj} {e : String}
    (h : dynamicRetrievalConfigToMldev d p = .error e) : e ∈ ([] : List String) := by
  simp [dynamicRetrievalConfigToMldev, exc_pure] at h

theorem googleSearchRetrievalToMldev_err {d p : JObj} {e : String}
    (h : googleSearchRetrievalToMldev d p = .error e) : e ∈ [castMsg] := by
  unfold googleSearchRetrievalToMldev at h
  rcases bind_err_cases h with h1 | ⟨t, _, h⟩
  · simpa using convertObjField_err (fun _ _ _ hh => dynamicRetrievalConfigToMldev_err hh) h1
  · simp at h

theorem toolToMldev_err {d p : JObj} {e : String}
    (h : toolToMldev d p = .error e) :
    e ∈ [castMsg, notSupportedMldev "response", notSupportedMldev "retrieval"] := by
  unfold toolToMldev at h
  rcases bind_err_cases h with h1 | ⟨t, _, h⟩
  · have := convertSliceField_err (fun _ _ _ hh => functionDeclarationToMldev_err hh) h1
    simp only [List.mem_cons, List.not_mem_nil, or_false] at this ⊢
    tauto
  rcases bind_err_cases h with h1 | ⟨u, _, h⟩
  · simp [(checkAbsent_err h1).1]
  rcases bind_err_cases h with h1 | ⟨t2, _, h⟩
  · have := convertObjField_err (fun _ _ _ hh => googleSearchToMldev_err hh) h1
    simp only [List.mem_cons, List.not_mem_nil, or_false] at this ⊢
    tauto
  rcases bind_err_cases h with h1 | ⟨t3, _, h⟩
  · have := convertObjField_err (fun _ _ _ hh => googleSearchRetrievalToMldev_err hh) h1
    simp only [List.mem_cons, List.not_mem_nil, or_false] at this ⊢
    tauto
  · simp at h

theorem functionCallingConfigToMldev_err {d p : JObj} {e : String}
    (h : functionCallingConfigToMldev d p = .error e) : e ∈ ([] : List String) := by
  simp [functionCallingConfigToMldev, exc_pure] at h

theorem toolConfigToMldev_err {d p : JObj} {e : String}
    (h : toolConfigToMldev d p = .error e) : e ∈ [castMsg] := by
  unfold toolConfigToMldev at h
  rcases bind_err_cases h with h1 | ⟨t, _, h⟩
  · simpa using convertObjField_err (fun _ _ _ hh => functionCallingConfigToMldev_err hh) h1
  · simp at h

theorem prebuiltVoiceConfigToMldev_err {d p : JObj} {e : String}
    (h : prebuiltVoiceConfigToMldev d p = .error e) : e ∈ ([] : List String) := by
  simp [prebuiltVoiceConfigToMldev, exc_pure] at h

theorem voiceConfigToMldev_err {d p : JObj} {e : String}
    (h : voiceConfigToMldev d p = .error e) : e ∈ [castMsg] := by
  unfold voiceConfigToMldev at h
  rcases bind_err_cases h with h1 | ⟨t, _, h⟩
  · simpa using convertObjField_err (fun _ _ _ hh => prebuiltVoiceConfigToMldev_err hh) h1
  · simp at h

theorem speechConfigToMldev_err {d p : JObj} {e : String}
    (h : speechConfigToMldev d p = .error e) : e ∈ [castMsg] := by
  unfold speechConfigToMldev at h
  rcases bind_err_cases h with h1 | ⟨t, _, h⟩
  · have := convertObjField_err (fun _ _ _ hh => voiceConfigToMldev_err hh) h1
    simp only [List.mem_cons, List.not_mem_nil, or_false] at this ⊢
    tauto
  · simp at h

theorem setCachedContentField_err {ac : ApiConfig} {d p : JObj} {e : String}
    (h : setCachedContentField ac d p = .error e) : e ∈ [castMsg] := by
  unfold setCachedContentField at h
  split at h
  · simp at h
  rcases bind_err_cases h with h1 | ⟨n, _, h⟩
  · unfold tCachedContentName at h1
    rcases bind_err_cases h1 with h2 | ⟨s, _, h2⟩
    · simp [castString_err h2]
    · simp at h2
  · simp at h

/-- The four GenerateContentConfig fields rejected for the Google AI
backend, in source check order, with the exact error of each. -/
def cfgRejections : List (String × String) :=
  [("responseLogprobs", notSupportedMldev "response_logprobs"),
   ("logprobs", notSupportedMldev "logprobs"),
   ("routingConfig", notSupportedMldev "routing_config"),
   ("mediaResolution", notSupportedMldev "media_resolution")]

/-- Error messages that generateContentConfigToMldev can produce through its
nested converters (cast panics and nested rejected fields), as opposed to
its own four rejection checks. -/
def cfgNestedMsgs : List String :=
  [castMsg, notSupportedMldev "video_metadata"] ++
    mldevSchemaRejections.map Prod.snd ++
    [notSupportedMldev "method", notSupportedMldev "response",
     notSupportedMldev "retrieval"]

/-- Every error of generateContentConfigToMldev is either one of its own four
rejection errors (with the rejected field present in the input) or an error
of a nested converter. -/
theorem generateContentConfigToMldev_err {ac : ApiConfig} {d p : JObj} {e : String}
    (h : generateContentConfigToMldev ac d p = .error e) :
    (e = notSupportedMldev "response_logprobs" ∧ fieldPresent d "responseLogprobs" = true) ∨
    (e = notSupportedMldev "logprobs" ∧ fieldPresent d "logprobs" = true) ∨
    (e = notSupportedMldev "routing_config" ∧ fieldPresent d "routingConfig" = true) ∨
    (e = notSupportedMldev "media_resolution" ∧ fieldPresent d "mediaResolution" = true) ∨
    e ∈ cfgNestedMsgs := by
  unfold generateContentConfigToMldev at h
  rcases bind_err_cases h with h1 | ⟨a1, _, h⟩
  · have := convertObjFieldToParent_err (fun _ _ _ hh => contentToMldev_err hh) h1
    refine Or.inr (Or.inr (Or.inr (Or.inr ?_)))
    simp only [cfgNestedMsgs, List.mem_cons, List.mem_append, List.not_mem_nil,
      or_false] at this ⊢
    tauto
  obtain ⟨to1, par1⟩ := a1
  rcases bind_err_cases h with h1 | ⟨u1, _, h⟩
  · exact Or.inl ⟨(checkAbsent_err h1).1, (checkAbsent_err h1).2⟩
  rcases bind_err_cases h with h1 | ⟨u2, _, h⟩
  · exact Or.inr (Or.inl ⟨(checkAbsent_err h1).1, (checkAbsent_err h1).2⟩)
  rcases bind_err_cases h with h1 | ⟨t2, _, h⟩
  · have := convertObjField_err (fun _ _ _ hh => schemaToMldev_err hh) h1
    refine Or.inr (Or.inr (Or.inr (Or.inr ?_)))
    simp only [cfgNestedMsgs, List.mem_cons, List.mem_append, List.not_mem_nil,
      or_false] at this ⊢
    tauto
  rcases bind_err_cases h with h1 | ⟨u3, _, h⟩
  · exact Or.inr (Or.inr (Or.inl ⟨(checkAbsent_err h1).1, (checkAbsent_err h1).2⟩))
  rcases bind_err_cases h with h1 | ⟨p2, _, h⟩
  · have := convertSliceFieldToParent_err (fun _ _ _ hh => safetySettingToMldev_err hh) h1
    refine Or.inr (Or.inr (Or.inr (Or.inr ?_)))
    simp only [cfgNestedMsgs, List.mem_cons, List.mem_append, List.not_mem_nil,
      or_false] at this ⊢
    tauto
  rcases bind_err_cases h with h1 | ⟨p3, _, h⟩
  · have := convertSliceFieldToParent_err (fun _ _ _ hh => toolToMldev_err hh) h1
    refine Or.inr (Or.inr (Or.inr (Or.inr ?_)))
    simp only [cfgNestedMsgs, List.mem_cons, List.mem_append, List.not_mem_nil,
      or_false] at this ⊢
    tauto
  rcases bind_err_cases h with h1 | ⟨a2, _, h⟩
  · have := convertObjFieldToParent_err (fun _ _ _ hh => toolConfigToMldev_err hh) h1
    refine Or.inr (Or.inr (Or.inr (Or.inr ?_)))
    simp only [cfgNestedMsgs, List.mem_cons, List.mem_append, List.not_mem_nil,
      or_false] at this ⊢
    tauto
  obtain ⟨to3, par3⟩ := a2
  rcases bind_err_cases h with h1 | ⟨p4, _, h⟩
  · have := setCachedContentField_err h1
    refine Or.inr (Or.inr (Or.inr (Or.inr ?_)))
    simp only [cfgNestedMsgs, List.mem_cons, List.mem_append, List.not_mem_nil,
      or_false] at this ⊢
    tauto
  rcases bind_err_cases h with h1 | ⟨u4, _, h⟩
  · exact Or.inr (Or.inr (Or.inr (Or.inl ⟨(checkAbsent_err h1).1, (checkAbsent_err h1).2⟩)))
  rcases bind_err_cases h with h1 | ⟨t4, _, h⟩
  · have := convertObjField_err (fun _ _ _ hh => speechConfigToMldev_err hh) h1
    refine Or.inr (Or.inr (Or.inr (Or.inr ?_)))
    simp only [cfgNestedMsgs, List.mem_cons, List.mem_append, List.not_mem_nil,
      or_false] at this ⊢
    tauto
  · simp at h

/-- A successful generateContentConfigToMldev conversion implies that none of
its four rejected fields was present. -/
theorem generateContentConfigToMldev_ok_absent {ac : ApiConfig} {d p : JObj}
    {out : JObj × JObj} (h : generateContentConfigToMldev ac d p = .ok out) :
    ∀ q ∈ cfgRejections, fieldPresent d q.1 = false := by
  unfold generateContentConfigToMldev at h
  obtain ⟨a1, _, h⟩ := bind_ok_ex h
  obtain ⟨to1, par1⟩ := a1
  obtain ⟨u1, hc1, h⟩ := bind_ok_ex h
  obtain ⟨u2, hc2, h⟩ := bind_ok_ex h
  obtain ⟨t2, _, h⟩ := bind_ok_ex h
  obtain ⟨u3, hc3, h⟩ := bind_ok_ex h
  obtain ⟨p2, _, h⟩ := bind_ok_ex h
  obtain ⟨p3, _, h⟩ := bind_ok_ex h
  obtain ⟨a2, _, h⟩ := bind_ok_ex h
  obtain ⟨to3, par3⟩ := a2
  obtain ⟨p4, _, h⟩ := bind_ok_ex h
  obtain ⟨u4, hc4, h⟩ := bind_ok_ex h
  intro q hq
  fin_cases hq
  · exact checkAbsent_ok hc1
  · exact checkAbsent_ok hc2
  · exact checkAbsent_ok hc3
  · exact checkAbsent_ok hc4

theorem denull_none : denull none = none := rfl

theorem getValueByPath_single (f g : String) (v : GoVal) :
    getValueByPath [(f, v)] [g] = if f = g then denull (some v) else none := by
  by_cases h : f = g <;> simp [getValueByPath, getGo, jget, h, denull_none]

theorem fieldPresent_single (f g : String) (v : GoVal) :
    fieldPresent [(f, v)] g = if f = g then !(isNull v) else false := by
  rw [fieldPresent, getValueByPath_single]
  by_cases h : f = g
  · rw [if_pos h, if_pos h, denull_some]
    cases hv : isNull v <;> simp
  · rw [if_neg h, if_neg h, Option.isSome_none]

deriving instance DecidableEq for Except

/-! ### Claim C2: model-name normalization table -/

/-- C2 counterexample: the claim sends every one of the four inputs,
including the bare id "m", to "projects/p/locations/l/publishers/pub/models/m".
The code resolves the bare id with the implicit publisher google, so for any
publisher other than google the bare input resolves to a different name. -/
theorem claim_C2_counterexample :
    tModelFullName ⟨.vertexAI, "p", "l"⟩ "m" =
      .ok "projects/p/locations/l/publishers/google/models/m" ∧
    (Except.ok "projects/p/locations/l/publishers/google/models/m" :
        Except String String) ≠
      .ok "projects/p/locations/l/publishers/pub/models/m" := by
  constructor
  · decide
  · intro h
    rw [Except.ok.injEq] at h
    exact absurd h (by decide)

/-- C2 (amended): with the Vertex backend (project p, location l) the inputs
"pub/m", "publishers/pub/models/m" and the already fully qualified name all
resolve to "projects/p/locations/l/publishers/pub/models/m", while the bare
input "m" resolves with the implicit publisher google (so all four coincide
exactly when the publisher is google); with the Google AI backend tModel
maps "m" to "models/m" and leaves "models/m" and "tunedModels/x" unchanged;
for both backends the empty-string model is a hard error. -/
theorem claim_C2_amended :
    tModelFullName ⟨.vertexAI, "p", "l"⟩ "pub/m" =
      .ok "projects/p/locations/l/publishers/pub/models/m" ∧
    tModelFullName ⟨.vertexAI, "p", "l"⟩ "publishers/pub/models/m" =
      .ok "projects/p/locations/l/publishers/pub/models/m" ∧
    tModelFullName ⟨.vertexAI, "p", "l"⟩ "projects/p/locations/l/publishers/pub/models/m" =
      .ok "projects/p/locations/l/publishers/pub/models/m" ∧
    tModelFullName ⟨.vertexAI, "p", "l"⟩ "m" =
      .ok "projects/p/locations/l/publishers/google/models/m" ∧
    tModelFullName ⟨.vertexAI, "p", "l"⟩ "google/m" =
      .ok "projects/p/locations/l/publishers/google/models/m" ∧
    tModelFullName ⟨.vertexAI, "p", "l"⟩ "publishers/google/models/m" =
      .ok "projects/p/locations/l/publishers/google/models/m" ∧
    tModelFullName ⟨.vertexAI, "p", "l"⟩ "projects/p/locations/l/publishers/google/models/m" =
      .ok "projects/p/locations/l/publishers/google/models/m" ∧
    tModel ⟨.googleAI, "", ""⟩ "m" = .ok "models/m" ∧
    tModel ⟨.googleAI, "", ""⟩ "models/m" = .ok "models/m" ∧
    tModel ⟨.googleAI, "", ""⟩ "tunedModels/x" = .ok "tunedModels/x" ∧
    tModel ⟨.googleAI, "", ""⟩ "" = .error "tModel: model is empty" ∧
    tModelFullName ⟨.vertexAI, "p", "l"⟩ "" =
      .error "tModelFullName: tModel: model is empty" := by
  repeat' constructor <;> decide

/-! ### Claim C4: empty-value suppression -/

/-- C4: setting a zero/empty value at a (non-empty) document path never
creates the corresponding leaf key; setting a non-zero (non-nil) value
always creates it, overwriting prior content at that path, creating
intermediate mappings as needed. -/
theorem claim_C4_empty_value_suppression :
    (∀ (d : JObj) (ks : List String) (v : GoVal), ks ≠ [] → isZero v = false →
        getValueByPath (setValueByPath d ks v) ks = some v) ∧
    (∀ (d : JObj) (ks : List String) (v : GoVal), isZero v = true →
        hasLeafKey d ks = false →
        hasLeafKey (setValueByPath d ks v) ks = false) :=
  ⟨setValueByPath_get_nonzero, fun d ks v hz habs =>
    setValueByPath_zero_no_create d ks v hz habs⟩

theorem claim_C4_witness :
    getValueByPath (setValueByPath [("a", .obj [("b", .str "old")])] ["a", "b"]
        (.num 5)) ["a", "b"] = some (.num 5) ∧
    hasLeafKey (setValueByPath [("a", .obj [])] ["a", "b"] (.num 0)) ["a", "b"] =
      false :=
  ⟨claim_C4_empty_value_suppression.1 _ ["a", "b"] (.num 5) (by simp) rfl,
   claim_C4_empty_value_suppression.2 _ ["a", "b"] (.num 0) rfl rfl⟩

/-! ### Claim C9: intermediate-mapping materialization -/

/-- C9: a nil value causes no mutation at all; any non-nil value (zero-valued
or not) materializes a mapping at every intermediate path segment, and an
existing non-mapping intermediate value is replaced by a fresh empty mapping
that the rest of the path is built inside (even when the zero-valued leaf is
then not written). -/
theorem claim_C9_intermediate_materialization :
    (∀ (d : JObj) (ks : List String), setValueByPath d ks GoVal.null = d) ∧
    (∀ (d : JObj) (ks : List String) (v : GoVal), v ≠ GoVal.null →
        mapsAlong (setValueByPath d ks v) ks.dropLast = true) ∧
    (∀ (d : JObj) (k k' : String) (rest : List String) (v : GoVal),
        v ≠ GoVal.null → (∀ m : JObj, jget d k ≠ some (.obj m)) →
        jget (setValueByPath d (k :: k' :: rest) v) k =
          some (.obj (setGo [] (k' :: rest) v))) :=
  ⟨setValueByPath_null, setValueByPath_mapsAlong, setValueByPath_fresh_intermediate⟩

theorem claim_C9_witness :
    mapsAlong (setValueByPath [] ["a", "b"] (.bool false)) ["a"] = true ∧
    jget (setValueByPath [("a", .num 1)] ["a", "b"] (.num 0)) "a" =
      some (.obj (setGo [] ["b"] (.num 0))) :=
  ⟨claim_C9_intermediate_materialization.2.1 [] ["a", "b"] (.bool false) (by simp),
   claim_C9_intermediate_materialization.2.2 [("a", .num 1)] "a" "b" [] (.num 0)
     (by simp) (by intro m h; simp [jget] at h)⟩

/-! ### Claim C1: rejection completeness -/

/-- C1 counterexample: the claim says a field holding the zero value of its
type never makes the converter fail, but the converters test only for Go
nil: the document holding the zero value false at the rejected Vertex field
thought is rejected by partToVertex (and likewise a zero number at a
rejected schema constraint field is rejected by schemaToMldev). -/
theorem claim_C1_counterexample :
    getValueByPath [("thought", GoVal.bool false)] ["thought"] =
      some (.bool false) ∧
    isZero (.bool false) = true ∧
    partToVertex [("thought", .bool false)] [] =
      .error (notSupportedVertex "thought") ∧
    isZero (.num 0) = true ∧
    schemaToMldev [("minItems", .num 0)] [] =
      .error (notSupportedMldev "min_items") := by
  refine ⟨rfl, rfl, ?_, rfl, ?_⟩
  · rfl
  · rfl

/-- C1 (amended): for the three converters and the fields the claim lists as
unsupported, a non-nil value at the field's path — including a present zero
value such as false or 0 — makes the converter return the error naming the
field and no output document; the converter avoids a rejected field's error
exactly when that field is absent or nil.  Conjuncts: (1)/(2) partToMldev
rejects videoMetadata and succeeds otherwise; (3)/(4) partToVertex rejects
thought and succeeds otherwise; (5)-(7) schemaToMldev fails iff one of its
fifteen rejected constraint fields is present, naming a present one (the
first in check order; exactly that field when it alone is supplied); (8)-(10)
generateContentConfigToMldev fails whenever one of
responseLogprobs/logprobs/routingConfig/mediaResolution is present, names
exactly the supplied field when it alone is supplied, and never produces a
rejected field's error when that field is absent. -/
theorem claim_C1_rejection_completeness :
    (∀ (d p : JObj), fieldPresent d "videoMetadata" = true →
        partToMldev d p = .error (notSupportedMldev "video_metadata")) ∧
    (∀ (d p : JObj), fieldPresent d "videoMetadata" = false →
        ∃ out, partToMldev d p = .ok out) ∧
    (∀ (d p : JObj), fieldPresent d "thought" = true →
        partToVertex d p = .error (notSupportedVertex "thought")) ∧
    (∀ (d p : JObj), fieldPresent d "thought" = false →
        ∃ out, partToVertex d p = .ok out) ∧
    (∀ (d p : JObj), (∃ q ∈ mldevSchemaRejections, fieldPresent d q.1 = true) →
        ∃ e, schemaToMldev d p = .error e ∧
          ∃ q ∈ mldevSchemaRejections, e = q.2 ∧ fieldPresent d q.1 = true) ∧
    (∀ (d p : JObj), (∀ q ∈ mldevSchemaRejections, fieldPresent d q.1 = false) →
        ∃ out, schemaToMldev d p = .ok out) ∧
    (∀ (p : JObj) (v : GoVal) (f m : String), (f, m) ∈ mldevSchemaRejections →
        isNull v = false → schemaToMldev [(f, v)] p = .error m) ∧
    (∀ (ac : ApiConfig) (d p : JObj), ∀ q ∈ cfgRejections,
        fieldPresent d q.1 = true →
        ∃ e, generateContentConfigToMldev ac d p = .error e) ∧
    (∀ (ac : ApiConfig) (p : JObj) (v : GoVal) (f m : String),
        (f, m) ∈ cfgRejections → isNull v = false →
        generateContentConfigToMldev ac [(f, v)] p = .error m) ∧
    (∀ (ac : ApiConfig) (d p : JObj), ∀ q ∈ cfgRejections,
        fieldPresent d q.1 = false →
        generateContentConfigToMldev ac d p ≠ .error q.2) := by
  refine ⟨?_, ?_, ?_, ?_, ?_, ?_, ?_, ?_, ?_, ?_⟩
  · intro d p h
    simp [partToMldev, checkAbsent_of_present _ h, exc_bind_error]
  · intro d p h
    simp [partToMldev, checkAbsent_of_absent _ h, exc_bind_ok]
  · intro d p h
    simp [partToVertex, checkAbsent_of_present _ h, exc_bind_error]
  · intro d p h
    simp [partToVertex, checkAbsent_of_absent _ h, exc_bind_ok]
  · intro d p hex
    cases hf : firstReject d mldevSchemaRejections with
    | none =>
        obtain ⟨q, hq, hp⟩ := hex
        rw [firstReject_none_iff] at hf
        rw [hf q hq] at hp
        exact absurd hp (by decide)
    | some m =>
        refine ⟨m, ?_, firstReject_some_mem hf⟩
        simp [schemaToMldev, rejectFields_eq_firstReject, hf, exc_bind_error]
  · intro d p habs
    have hf : firstReject d mldevSchemaRejections = none :=
      (firstReject_none_iff _ _).mpr habs
    simp [schemaToMldev, rejectFields_eq_firstReject, hf, exc_bind_ok]
  · intro p v f m hmem hv
    fin_cases hmem <;>
      simp [schemaToMldev, rejectFields_eq_firstReject, firstReject, fieldPresent,
        getValueByPath_single, denull_some, hv, mldevSchemaRejections,
        exc_bind_ok, exc_bind_error, exc_pure]
  · intro ac d p q hq hp
    cases hg : generateContentConfigToMldev ac d p with
    | ok out =>
        rw [generateContentConfigToMldev_ok_absent hg q hq] at hp
        exact absurd hp (by decide)
    | error e => exact ⟨e, rfl⟩
  · intro ac p v f m hmem hv
    fin_cases hmem <;>
      simp [generateContentConfigToMldev, convertObjFieldToParent, convertObjField,
        convertSliceField, convertSliceFieldToParent, copyField, checkAbsent,
        fieldPresent, setCachedContentField, getValueByPath_single, denull_some, hv,
        exc_bind_ok, exc_bind_error, exc_pure]
  · intro ac d p q hq habs hne
    have hmaster := generateContentConfigToMldev_err hne
    fin_cases hq <;>
      (rcases hmaster with ⟨he, hp⟩ | ⟨he, hp⟩ | ⟨he, hp⟩ | ⟨he, hp⟩ | hmem <;>
        first
          | exact absurd hmem (by decide)
          | exact absurd he (by decide)
          | simp_all)

theorem claim_C1_witness :
    partToMldev [("videoMetadata", .obj [])] [] =
      .error (notSupportedMldev "video_metadata") ∧
    (∃ out, partToMldev [("text", .str "hi")] [] = .ok out) ∧
    generateContentConfigToMldev ⟨.googleAI, "", ""⟩
        [("routingConfig", .obj [])] [] =
      .error (notSupportedMldev "routing_config") ∧
    schemaToMldev [("maxProperties", .num 3)] [] =
      .error (notSupportedMldev "max_properties") :=
  ⟨claim_C1_rejection_completeness.1 _ _ rfl,
   claim_C1_rejection_completeness.2.1 _ _ rfl,
   claim_C1_rejection_completeness.2.2.2.2.2.2.2.2.1 _ _ (.obj [])
     "routingConfig" _ (by simp [cfgRejections]) rfl,
   claim_C1_rejection_completeness.2.2.2.2.2.2.1 _ (.num 3)
     "maxProperties" _ (by simp [mldevSchemaRejections]) rfl⟩

/-! ### Claim C8: slice conversion -/

theorem applyConverterToSlice_ok_map
    {conv : JObj → JObj → Except String (JObj × JObj)} (f : JObj → JObj) :
    ∀ ms : List JObj, (∀ m ∈ ms, ∃ pr, conv m [] = .ok (f m, pr)) →
      applyConverterToSlice conv (ms.map GoVal.obj) = .ok (ms.map f) := by
  intro ms
  induction ms with
  | nil => intro _; rfl
  | cons m rest ih =>
      intro hall
      obtain ⟨pr, hm⟩ := hall m (by simp)
      simp only [List.map_cons, applyConverterToSlice, castObj, exc_bind_ok, hm]
      rw [ih fun m' hm' => hall m' (by simp [hm'])]
      rfl

theorem applyConverterToSlice_first_err
    {conv : JObj → JObj → Except String (JObj × JObj)} {x : JObj} {e : String} :
    ∀ pre : List JObj, (∀ m ∈ pre, ∃ o pr, conv m [] = .ok (o, pr)) →
      conv x [] = .error e → ∀ post : List JObj,
      applyConverterToSlice conv ((pre ++ x :: post).map GoVal.obj) = .error e := by
  intro pre
  induction pre with
  | nil =>
      intro _ hx post
      simp only [List.nil_append, List.map_cons, applyConverterToSlice, castObj,
        exc_bind_ok, hx, exc_bind_error]
  | cons m rest ih =>
      intro hall hx post
      obtain ⟨o, pr, hm⟩ := hall m (by simp)
      simp only [List.cons_append, List.map_cons, applyConverterToSlice, castObj,
        exc_bind_ok, hm, List.append_eq]
      rw [ih (fun m' hm' => hall m' (by simp [hm'])) hx post]
      rfl

/-- C8: applyConverterToSlice applies the element converter to the elements
of the input sequence in input order, returning the outputs in order when
every element converts; as soon as an element fails, the first failing
element's error is returned with no output collection, regardless of the
elements after it (they are not converted). -/
theorem claim_C8_slice_conversion :
    (∀ (conv : JObj → JObj → Except String (JObj × JObj)) (f : JObj → JObj)
        (ms : List JObj), (∀ m ∈ ms, ∃ pr, conv m [] = .ok (f m, pr)) →
        applyConverterToSlice conv (ms.map GoVal.obj) = .ok (ms.map f)) ∧
    (∀ (conv : JObj → JObj → Except String (JObj × JObj)) (x : JObj)
        (e : String) (pre : List JObj),
        (∀ m ∈ pre, ∃ o pr, conv m [] = .ok (o, pr)) → conv x [] = .error e →
        ∀ post : List JObj,
          applyConverterToSlice conv ((pre ++ x :: post).map GoVal.obj) =
            .error e) :=
  ⟨fun _ => applyConverterToSlice_ok_map,
   fun _ _ _ => applyConverterToSlice_first_err⟩

theorem claim_C8_witness :
    applyConverterToSlice partToMldev
        (([[("text", GoVal.str "a")], [("text", GoVal.str "b")]] :
            List JObj).map GoVal.obj) =
      .ok [[("text", GoVal.str "a")], [("text", GoVal.str "b")]] ∧
    applyConverterToSlice partToMldev
        ((([[("text", GoVal.str "a")]] ++
            [("videoMetadata", GoVal.obj [])] :: [[("text", GoVal.str "c")]] :
            List JObj)).map GoVal.obj) =
      .error (notSupportedMldev "video_metadata") :=
  ⟨claim_C8_slice_conversion.1 partToMldev id _
      (by intro m hm; fin_cases hm <;> · exact ⟨[], rfl⟩),
   claim_C8_slice_conversion.2 partToMldev [("videoMetadata", GoVal.obj [])]
      (notSupportedMldev "video_metadata") [[("text", GoVal.str "a")]]
      (by intro m hm; fin_cases hm; exact ⟨[("text", GoVal.str "a")], [], rfl⟩)
      rfl [[("text", GoVal.str "c")]]⟩

/-! ### Streaming decoder (api_client.go)

The response body is a byte stream; we model it as a list of characters.
bufio.Scanner driven by the custom split function scan, once all data is
buffered, repeatedly takes the text before the first blank-line delimiter
(checking "\n\n" before "\r\n\r\n", dropping one trailing carriage return
from each token) and at EOF emits the final non-terminated chunk.  The
recursion is written with a fuel argument bounded by the data length so
that concrete instances evaluate; every emitted token consumes at least two
characters of data, so the fuel never runs out. -/

/-- dropCR from the source: drops one terminal carriage return. -/
def dropCR : List Char → List Char
  | [] => []
  | [c] => if c = '\r' then [] else [c]
  | c :: rest => c :: dropCR rest

/-- Index of the first occurrence of pat in data. -/
def findSub (pat : List Char) : List Char → Option Nat
  | [] => if pat.isPrefixOf [] then some 0 else none
  | d :: rest =>
      if pat.isPrefixOf (d :: rest) then some 0
      else (findSub pat rest).map (· + 1)

def scanGo : Nat → List Char → List (List Char)
  | 0, _ => []
  | _, [] => []
  | fuel + 1, d :: rest =>
      match findSub ['\n', '\n'] (d :: rest) with
      | some i => dropCR ((d :: rest).take i) :: scanGo fuel ((d :: rest).drop (i + 2))
      | none =>
          match findSub ['\r', '\n', '\r', '\n'] (d :: rest) with
          | some i =>
              dropCR ((d :: rest).take i) :: scanGo fuel ((d :: rest).drop (i + 4))
          | none => [dropCR (d :: rest)]

/-- The token sequence the scanner produces from a complete body, per the
split function scan of the source. -/
def scanTokens (data : List Char) : List (List Char) :=
  scanGo (data.length + 1) data

/-- Go bytes.Cut(line, ":"): text before the first colon and text after it
(the whole line and the empty remainder when there is no colon). -/
def cutColon : List Char → List Char × List Char
  | [] => ([], [])
  | c :: cs =>
      if c = ':' then ([], cs)
      else
        let p := cutColon cs
        (c :: p.1, p.2)

/-- One element yielded by the stream iterator: the pair (response, error)
passed to yield.  (none, none) is the Go (nil, nil) yield that follows a
converter failure. -/
abbrev StreamEvent := Option GoVal × Option String

/-- The events iterateResponseStream yields for one non-empty frame, for a
consumer that keeps pulling.  jsonDec stands for json.Unmarshal into a
map[string]any (a failure leaves the map empty, and the source still calls
the response converter on it afterwards); conv is the responseConverter. -/
def frameEvents (jsonDec : List Char → Except String JObj)
    (conv : JObj → Except String GoVal) (line : List Char) :
    List StreamEvent :=
  let p := cutColon line
  if p.1 = "data".data then
    let dec : JObj × List StreamEvent :=
      match jsonDec p.2 with
      | .ok m => (m, [])
      | .error e => ([], [(none, some e)])
    match conv dec.1 with
    | .ok r => dec.2 ++ [(some r, none)]
    | .error e => dec.2 ++ [(none, some e), (none, none)]
  else
    [(none, some ("iterateResponseStream: invalid stream chunk: " ++
        String.mk p.2))]

/-- The full event sequence iterateResponseStream yields from a body, for a
consumer that keeps pulling: empty tokens are skipped, every other token is
one frame. -/
def streamEvents (jsonDec : List Char → Except String JObj)
    (conv : JObj → Except String GoVal) (body : List Char) :
    List StreamEvent :=
  ((scanTokens body).filter (fun t => t ≠ [])).flatMap
    (frameEvents jsonDec conv)

/-- The events actually delivered when the consumer decides after each
element whether to continue: the iterator stops right after the first
element the consumer declines. -/
def runConsumer (keepGoing : StreamEvent → Bool) :
    List StreamEvent → List StreamEvent
  | [] => []
  | e :: es => if keepGoing e then e :: runConsumer keepGoing es else [e]

theorem runConsumer_all (evs : List StreamEvent) :
    runConsumer (fun _ => true) evs = evs := by
  induction evs with
  | nil => rfl
  | cons e es ih => simp [runConsumer, ih]

theorem cutColon_data (P : List Char) :
    cutColon ("data:".data ++ P) = ("data".data, P) := by
  simp [cutColon]

theorem cutColon_data' (P : List Char) :
    cutColon ('d' :: 'a' :: 't' :: 'a' :: ':' :: P) = (['d', 'a', 't', 'a'], P) := by
  simp [cutColon]

/-! ### Claim C3: streaming frame boundary -/

/-- C3: a body of two data frames separated by a blank line yields exactly
the two decoded elements in body order; the same body with Windows-style
separators yields the same two elements; a frame with a non-data prefix
yields an error element naming the offending payload, and a consumer that
declines after an error element stops the iteration at that point. -/
theorem claim_C3_streaming_frame_boundary :
    (∀ (jd : List Char → Except String JObj) (cv : JObj → Except String GoVal)
        (mA mB : JObj) (rA rB : GoVal),
        jd ['A'] = .ok mA → cv mA = .ok rA →
        jd ['B'] = .ok mB → cv mB = .ok rB →
        streamEvents jd cv ("data:A\n\ndata:B").data =
          [(some rA, none), (some rB, none)] ∧
        streamEvents jd cv ("data:A\r\n\r\ndata:B").data =
          [(some rA, none), (some rB, none)]) ∧
    (∀ (jd : List Char → Except String JObj) (cv : JObj → Except String GoVal)
        (mB : JObj) (rB : GoVal),
        jd ['B'] = .ok mB → cv mB = .ok rB →
        streamEvents jd cv ("event:A\n\ndata:B").data =
          [(none, some "iterateResponseStream: invalid stream chunk: A"),
           (some rB, none)] ∧
        runConsumer (fun ev => ev.2.isNone)
            (streamEvents jd cv ("event:A\n\ndata:B").data) =
          [(none, some "iterateResponseStream: invalid stream chunk: A")]) := by
  constructor
  · intro jd cv mA mB rA rB hA hcA hB hcB
    have ht1 : scanTokens ("data:A\n\ndata:B").data =
        [("data:A").data, ("data:B").data] := rfl
    have ht2 : scanTokens ("data:A\r\n\r\ndata:B").data =
        [("data:A").data, ("data:B").data] := rfl
    constructor
    · simp [streamEvents, ht1, frameEvents, cutColon, hA, hcA, hB, hcB]
    · simp [streamEvents, ht2, frameEvents, cutColon, hA, hcA, hB, hcB]
  · intro jd cv mB rB hB hcB
    have ht : scanTokens ("event:A\n\ndata:B").data =
        [("event:A").data, ("data:B").data] := rfl
    have hmsg : "iterateResponseStream: invalid stream chunk: " ++
        String.mk ['A'] = "iterateResponseStream: invalid stream chunk: A" := by
      decide
    constructor
    · simp [streamEvents, ht, frameEvents, cutColon, dropCR, hB, hcB, hmsg]
    · simp [streamEvents, ht, frameEvents, cutColon, dropCR, hB, hcB, hmsg,
        runConsumer]

theorem claim_C3_witness :
    streamEvents (fun p => .ok [("payload", .str (String.mk p))])
        (fun m => .ok (.obj m)) ("data:A\n\ndata:B").data =
      [(some (.obj [("payload", .str "A")]), none),
       (some (.obj [("payload", .str "B")]), none)] ∧
    runConsumer (fun ev => ev.2.isNone)
        (streamEvents (fun p => .ok [("payload", .str (String.mk p))])
          (fun m => .ok (.obj m)) ("event:A\n\ndata:B").data) =
      [(none, some "iterateResponseStream: invalid stream chunk: A")] :=
  ⟨(claim_C3_streaming_frame_boundary.1 _ _ _ _ _ _ rfl rfl rfl rfl).1,
   (claim_C3_streaming_frame_boundary.2 _ _ _ _ rfl rfl).2⟩

/-! ### Claim C5: per-frame error as value -/

/-- C5: a frame whose data payload fails JSON decoding, or whose converted
document fails conversion, yields exactly one error element for that frame
(the source then also yields the surviving response value, nil after a
converter failure), the sequence is not terminated by it, and iteration
proceeds past the bad frame exactly when the consumer keeps pulling rather
than declining. -/
theorem claim_C5_per_frame_error :
    (∀ (jd : List Char → Except String JObj) (cv : JObj → Except String GoVal)
        (P : List Char) (e : String) (r : GoVal),
        jd P = .error e → cv [] = .ok r →
        frameEvents jd cv ("data:".data ++ P) =
          [(none, some e), (some r, none)]) ∧
    (∀ (jd : List Char → Except String JObj) (cv : JObj → Except String GoVal)
        (P : List Char) (m : JObj) (e : String),
        jd P = .ok m → cv m = .error e →
        frameEvents jd cv ("data:".data ++ P) =
          [(none, some e), (none, none)]) ∧
    (∀ (jd : List Char → Except String JObj) (cv : JObj → Except String GoVal)
        (e : String) (r : GoVal) (mB : JObj) (rB : GoVal),
        jd ['X'] = .error e → cv [] = .ok r →
        jd ['B'] = .ok mB → cv mB = .ok rB →
        streamEvents jd cv ("data:X\n\ndata:B").data =
          [(none, some e), (some r, none), (some rB, none)] ∧
        runConsumer (fun _ => true)
            (streamEvents jd cv ("data:X\n\ndata:B").data) =
          [(none, some e), (some r, none), (some rB, none)] ∧
        runConsumer (fun ev => ev.2.isNone)
            (streamEvents jd cv ("data:X\n\ndata:B").data) =
          [(none, some e)]) := by
  refine ⟨?_, ?_, ?_⟩
  · intro jd cv P e r hj hc
    simp [frameEvents, cutColon_data', hj, hc]
  · intro jd cv P m e hj hc
    simp [frameEvents, cutColon_data', hj, hc]
  · intro jd cv e r mB rB hX hc hB hcB
    have ht : scanTokens ("data:X\n\ndata:B").data =
        [("data:X").data, ("data:B").data] := rfl
    have hev : streamEvents jd cv ("data:X\n\ndata:B").data =
        [(none, some e), (some r, none), (some rB, none)] := by
      simp [streamEvents, ht, frameEvents, cutColon, hX, hc, hB, hcB]
    refine ⟨hev, ?_, ?_⟩
    · rw [hev, runConsumer_all]
    · rw [hev]
      simp [runConsumer]

theorem claim_C5_witness :
    frameEvents (fun p => if p = ['X'] then .error "invalid json"
        else .ok [("payload", .str (String.mk p))])
      (fun m => .ok (.obj m)) ("data:".data ++ ['X']) =
      [(none, some "invalid json"), (some (.obj []), none)] ∧
    runConsumer (fun ev => ev.2.isNone)
      (streamEvents (fun p => if p = ['X'] then .error "invalid json"
          else .ok [("payload", .str (String.mk p))])
        (fun m => .ok (.obj m)) ("data:X\n\ndata:B").data) =
      [(none, some "invalid json")] :=
  ⟨claim_C5_per_frame_error.1 _ _ ['X'] "invalid json" (.obj []) rfl rfl,
   (claim_C5_per_frame_error.2.2 _ _ "invalid json" (.obj [])
     [("payload", .str "B")] (.obj [("payload", .str "B")]) rfl rfl rfl rfl).2.2⟩

/-! ### Claim C10: final unterminated chunk -/

theorem scanTokens_no_delim (s : List Char) (hne : s ≠ [])
    (hnn : findSub ['\n', '\n'] s = none)
    (hrn : findSub ['\r', '\n', '\r', '\n'] s = none) :
    scanTokens s = [dropCR s] := by
  cases s with
  | nil => exact absurd rfl hne
  | cons c cs =>
      simp only [scanTokens, List.length_cons, scanGo]
      rw [hnn, hrn]

theorem dropCR_append_cr : ∀ cs : List Char, dropCR (cs ++ ['\r']) = cs := by
  intro cs
  induction cs with
  | nil => rfl
  | cons c rest ih =>
      cases rest with
      | nil => rfl
      | cons r rs =>
          simp only [List.cons_append] at ih ⊢
          rw [show dropCR (c :: r :: (rs ++ ['\r'])) =
              c :: dropCR (r :: (rs ++ ['\r'])) from rfl, ih]

/-- C10: at end of body a final non-empty chunk with no blank-line delimiter
is still emitted as one token, after stripping one trailing carriage
return, so a last data frame without a trailing blank line still yields its
decoded element. -/
theorem claim_C10_final_chunk :
    (∀ s : List Char, s ≠ [] → findSub ['\n', '\n'] s = none →
        findSub ['\r', '\n', '\r', '\n'] s = none →
        scanTokens s = [dropCR s]) ∧
    (∀ cs : List Char, dropCR (cs ++ ['\r']) = cs) ∧
    (∀ (jd : List Char → Except String JObj) (cv : JObj → Except String GoVal)
        (mA mB : JObj) (rA rB : GoVal),
        jd ['A'] = .ok mA → cv mA = .ok rA →
        jd ['B'] = .ok mB → cv mB = .ok rB →
        streamEvents jd cv ("data:A\n\ndata:B\r").data =
          [(some rA, none), (some rB, none)]) := by
  refine ⟨scanTokens_no_delim, dropCR_append_cr, ?_⟩
  intro jd cv mA mB rA rB hA hcA hB hcB
  have ht : scanTokens ("data:A\n\ndata:B\r").data =
      [("data:A").data, ("data:B").data] := rfl
  simp [streamEvents, ht, frameEvents, cutColon, hA, hcA, hB, hcB]

theorem claim_C10_witness :
    scanTokens ['d', 'x'] = [['d', 'x']] ∧
    streamEvents (fun p => .ok [("payload", .str (String.mk p))])
        (fun m => .ok (.obj m)) ("data:A\n\ndata:B\r").data =
      [(some (.obj [("payload", .str "A")]), none),
       (some (.obj [("payload", .str "B")]), none)] :=
  ⟨claim_C10_final_chunk.1 ['d', 'x'] (by simp) rfl rfl,
   claim_C10_final_chunk.2.2 _ _ _ _ _ _ rfl rfl rfl rfl⟩

/-! ### Backend-error classification (api_client.go newAPIError)

newAPIError reads the response body and unmarshals it into a struct whose
error field mirrors the body's error object.  We model the body by the
outcome of that read/unmarshal: empty, a JSON document carrying an optional
error object, or bytes that fail to unmarshal.  A Go nil-pointer
dereference (the source dereferences respWithError.ErrorInfo
unconditionally for a non-empty body) is modelled as a distinguished panic
result. -/

structure ApiErr where
  code : Nat
  message : String
  status : String
  details : List JObj

inductive BodyContent where
  | empty : BodyContent
  | json (errorInfo : Option ApiErr) : BodyContent
  | invalid (raw : String) : BodyContent

structure HTTPResponse where
  statusCode : Nat
  status : String
  body : BodyContent

/-- httpStatusOk from the source. -/
def httpStatusOk (r : HTTPResponse) : Bool :=
  200 ≤ r.statusCode && r.statusCode < 300

inductive APIErrorResult where
  | clientError (e : ApiErr)
  | serverError (e : ApiErr)
  | plain (msg : String)
  | panicNilDeref

/-- newAPIError from the source. -/
def newAPIError (r : HTTPResponse) : APIErrorResult :=
  match r.body with
  | .invalid raw =>
      .plain ("newAPIError: unmarshal response to error failed. Response: " ++ raw)
  | .json none => .panicNilDeref
  | .json (some e) =>
      if 400 ≤ r.statusCode ∧ r.statusCode < 500 then .clientError e
      else .serverError e
  | .empty =>
      if 400 ≤ r.statusCode ∧ r.statusCode < 500 then
        .clientError ⟨r.statusCode, "", r.status, []⟩
      else
        .serverError ⟨r.statusCode, "", r.status, []⟩

/-! ### Claim C7: backend-error classification -/

/-- C7 counterexample: the claim quantifies over every response with a
non-success status, but a 404 response whose body does not decode as JSON
produces an unclassified plain error, not a client-side fault value (and a
decoded body without an error object dereferences a nil pointer). -/
theorem claim_C7_counterexample :
    newAPIError ⟨404, "404 Not Found", .invalid "<html>Not Found</html>"⟩ =
      .plain ("newAPIError: unmarshal response to error failed. Response: " ++
        "<html>Not Found</html>") ∧
    (∀ e, newAPIError ⟨404, "404 Not Found", .invalid "<html>Not Found</html>"⟩ ≠
        .clientError e) ∧
    newAPIError ⟨404, "404 Not Found", .json none⟩ = .panicNilDeref := by
  refine ⟨rfl, ?_, rfl⟩
  intro e h
  rw [show newAPIError ⟨404, "404 Not Found", .invalid "<html>Not Found</html>"⟩ =
      .plain ("newAPIError: unmarshal response to error failed. Response: " ++
        "<html>Not Found</html>") from rfl] at h
  exact APIErrorResult.noConfusion h

/-- C7 (amended): for every non-success HTTP response whose body is either
empty or decodes to a JSON document with an error object, newAPIError
produces a client-side fault for a status in [400, 500) and a server-side
fault for any other non-success status; it carries the code, message,
status token and detail entries of the body's error object, or, for an
empty body, the response's status code and status text.  A body that fails
to decode yields an unclassified error instead. -/
theorem claim_C7_error_classification :
    ∀ r : HTTPResponse, httpStatusOk r = false →
      ((400 ≤ r.statusCode ∧ r.statusCode < 500) →
          (∀ e, r.body = .json (some e) → newAPIError r = .clientError e) ∧
          (r.body = .empty →
            newAPIError r = .clientError ⟨r.statusCode, "", r.status, []⟩)) ∧
      (¬(400 ≤ r.statusCode ∧ r.statusCode < 500) →
          (∀ e, r.body = .json (some e) → newAPIError r = .serverError e) ∧
          (r.body = .empty →
            newAPIError r = .serverError ⟨r.statusCode, "", r.status, []⟩)) := by
  intro r _
  constructor
  · intro hc
    constructor
    · intro e hb
      simp [newAPIError, hb, hc]
    · intro hb
      simp [newAPIError, hb, hc]
  · intro hc
    constructor
    · intro e hb
      simp [newAPIError, hb, hc]
    · intro hb
      simp [newAPIError, hb, hc]

theorem claim_C7_witness :
    newAPIError ⟨429, "429 Too Many Requests",
        .json (some ⟨429, "quota exceeded", "RESOURCE_EXHAUSTED", []⟩)⟩ =
      .clientError ⟨429, "quota exceeded", "RESOURCE_EXHAUSTED", []⟩ ∧
    newAPIError ⟨503, "503 Service Unavailable", .empty⟩ =
      .serverError ⟨503, "", "503 Service Unavailable", []⟩ :=
  ⟨((claim_C7_error_classification ⟨429, "429 Too Many Requests",
        .json (some ⟨429, "quota exceeded", "RESOURCE_EXHAUSTED", []⟩)⟩
        (by decide)).1 (by decide)).1 _ rfl,
   ((claim_C7_error_classification ⟨503, "503 Service Unavailable", .empty⟩
        (by decide)).2 (by decide)).2 rfl⟩

/-! ### Realtime (live) converters -/

def liveConnectConfigToMldev (fromObject parentObject : JObj) :
    Except String (JObj × JObj) := do
  let toObject : JObj := []
  let parentObject := copyField fromObject ["generationConfig"] parentObject
    ["setup", "generationConfig"]
  let parentObject := copyField fromObject ["responseModalities"] parentObject
    ["setup", "generationConfig", "responseModalities"]
  let parentObject := copyField fromObject ["speechConfig"] parentObject
    ["setup", "generationConfig", "speechConfig"]
  let (toObject, parentObject) ← convertObjFieldToParent contentToMldev fromObject
    "systemInstruction" toObject parentObject ["setup", "systemInstruction"]
  let parentObject ← convertSliceFieldToParent toolToMldev fromObject
    "tools" parentObject ["setup", "tools"]
  .ok (toObject, parentObject)

def liveConnectConfigToVertex (fromObject parentObject : JObj) :
    Except String (JObj × JObj) := do
  let toObject : JObj := []
  let parentObject := copyField fromObject ["generationConfig"] parentObject
    ["setup", "generationConfig"]
  let parentObject := copyField fromObject ["responseModalities"] parentObject
    ["setup", "generationConfig", "responseModalities"]
  let parentObject := copyField fromObject ["speechConfig"] parentObject
    ["setup", "generationConfig", "speechConfig"]
  let (toObject, parentObject) ← convertObjFieldToParent contentToVertex fromObject
    "systemInstruction" toObject parentObject ["setup", "systemInstruction"]
  let parentObject ← convertSliceFieldToParent toolToVertex fromObject
    "tools" parentObject ["setup", "tools"]
  .ok (toObject, parentObject)

def liveConnectParametersToMldev (fromObject parentObject : JObj) :
    Except String (JObj × JObj) := do
  let toObject : JObj := []
  let toObject := copyField fromObject ["model"] toObject ["setup", "model"]
  let toObject ← convertObjField liveConnectConfigToMldev fromObject "config"
    toObject ["config"]
  .ok (toObject, parentObject)

def liveConnectParametersToVertex (fromObject parentObject : JObj) :
    Except String (JObj × JObj) := do
  let toObject : JObj := []
  let toObject := copyField fromObject ["model"] toObject ["setup", "model"]
  let toObject ← convertObjField liveConnectConfigToVertex fromObject "config"
    toObject ["config"]
  .ok (toObject, parentObject)

def liveClientSetupToMldev (fromObject parentObject : JObj) :
    Except String (JObj × JObj) := do
  let toObject : JObj := []
  let toObject := copyField fromObject ["model"] toObject ["model"]
  let toObject := copyField fromObject ["generationConfig"] toObject ["generationConfig"]
  let toObject ← convertObjField contentToMldev fromObject "systemInstruction"
    toObject ["systemInstruction"]
  let toObject ← convertSliceField toolToMldev fromObject "tools" toObject ["tools"]
  .ok (toObject, parentObject)

def liveClientSetupToVertex (fromObject parentObject : JObj) :
    Except String (JObj × JObj) := do
  let toObject : JObj := []
  let toObject := copyField fromObject ["model"] toObject ["model"]
  let toObject := copyField fromObject ["generationConfig"] toObject ["generationConfig"]
  let toObject ← convertObjField contentToVertex fromObject "systemInstruction"
    toObject ["systemInstruction"]
  let toObject ← convertSliceField toolToVertex fromObject "tools" toObject ["tools"]
  .ok (toObject, parentObject)

def liveClientContentToMldev (fromObject parentObject : JObj) :
    Except String (JObj × JObj) := do
  let toObject : JObj := []
  let toObject ← convertSliceField contentToMldev fromObject "turns" toObject ["turns"]
  let toObject := copyField fromObject ["turnComplete"] toObject ["turnComplete"]
  .ok (toObject, parentObject)

def liveClientContentToVertex (fromObject parentObject : JObj) :
    Except String (JObj × JObj) := do
  let toObject : JObj := []
  let toObject ← convertSliceField contentToVertex fromObject "turns" toObject ["turns"]
  let toObject := copyField fromObject ["turnComplete"] toObject ["turnComplete"]
  .ok (toObject, parentObject)

def liveClientRealtimeInputToMldev (fromObject parentObject : JObj) :
    Except String (JObj × JObj) := do
  let toObject : JObj := []
  let toObject := copyField fromObject ["mediaChunks"] toObject ["mediaChunks"]
  .ok (toObject, parentObject)

def liveClientRealtimeInputToVertex (fromObject parentObject : JObj) :
    Except String (JObj × JObj) := do
  let toObject : JObj := []
  let toObject := copyField fromObject ["mediaChunks"] toObject ["mediaChunks"]
  .ok (toObject, parentObject)

def functionResponseToMldev (fromObject parentObject : JObj) :
    Except String (JObj × JObj) := do
  let toObject : JObj := []
  let toObject := copyField fromObject ["id"] toObject ["id"]
  let toObject := copyField fromObject ["name"] toObject ["name"]
  let toObject := copyField fromObject ["response"] toObject ["response"]
  .ok (toObject, parentObject)

def functionResponseToVertex (fromObject parentObject : JObj) :
    Except String (JObj × JObj) := do
  let _ ← checkAbsent fromObject "id" (notSupportedVertex "id")
  let toObject : JObj := []
  let toObject := copyField fromObject ["name"] toObject ["name"]
  let toObject := copyField fromObject ["response"] toObject ["response"]
  .ok (toObject, parentObject)

def liveClientToolResponseToMldev (fromObject parentObject : JObj) :
    Except String (JObj × JObj) := do
  let toObject : JObj := []
  let toObject ← convertSliceField functionResponseToMldev fromObject
    "functionResponses" toObject ["functionResponses"]
  .ok (toObject, parentObject)

def liveClientToolResponseToVertex (fromObject parentObject : JObj) :
    Except String (JObj × JObj) := do
  let toObject : JObj := []
  let toObject ← convertSliceField functionResponseToVertex fromObject
    "functionResponses" toObject ["functionResponses"]
  .ok (toObject, parentObject)

def liveClientMessageToMldev (fromObject parentObject : JObj) :
    Except String (JObj × JObj) := do
  let toObject : JObj := []
  let (toObject, parentObject) ← convertObjFieldToParent liveClientSetupToMldev
    fromObject "setup" toObject parentObject ["setup"]
  let (toObject, parentObject) ← convertObjFieldToParent liveClientContentToMldev
    fromObject "clientContent" toObject parentObject ["clientContent"]
  let (toObject, parentObject) ← convertObjFieldToParent liveClientRealtimeInputToMldev
    fromObject "realtimeInput" toObject parentObject ["realtimeInput"]
  let (toObject, parentObject) ← convertObjFieldToParent liveClientToolResponseToMldev
    fromObject "toolResponse" toObject parentObject ["toolResponse"]
  .ok (toObject, parentObject)

def liveClientMessageToVertex (fromObject parentObject : JObj) :
    Except String (JObj × JObj) := do
  let toObject : JObj := []
  let (toObject, parentObject) ← convertObjFieldToParent liveClientSetupToVertex
    fromObject "setup" toObject parentObject ["setup"]
  let (toObject, parentObject) ← convertObjFieldToParent liveClientContentToVertex
    fromObject "clientContent" toObject parentObject ["clientContent"]
  let (toObject, parentObject) ← convertObjFieldToParent liveClientRealtimeInputToVertex
    fromObject "realtimeInput" toObject parentObject ["realtimeInput"]
  let (toObject, parentObject) ← convertObjFieldToParent liveClientToolResponseToVertex
    fromObject "toolResponse" toObject parentObject ["toolResponse"]
  .ok (toObject, parentObject)

def liveSendParametersToMldev (fromObject parentObject : JObj) :
    Except String (JObj × JObj) := do
  let toObject : JObj := []
  let toObject ← convertObjField liveClientMessageToMldev fromObject "input"
    toObject ["input"]
  .ok (toObject, parentObject)

def liveSendParametersToVertex (fromObject parentObject : JObj) :
    Except String (JObj × JObj) := do
  let toObject : JObj := []
  let toObject ← convertObjField liveClientMessageToVertex fromObject "input"
    toObject ["input"]
  .ok (toObject, parentObject)

def liveServerSetupCompleteFromMldev (_fromObject parentObject : JObj) :
    Except String (JObj × JObj) :=
  .ok ([], parentObject)

def liveServerSetupCompleteFromVertex (_fromObject parentObject : JObj) :
    Except String (JObj × JObj) :=
  .ok ([], parentObject)

def partFromMldev (fromObject parentObject : JObj) : Except String (JObj × JObj) := do
  let toObject : JObj := []
  let toObject := copyField fromObject ["thought"] toObject ["thought"]
  let toObject := copyField fromObject ["codeExecutionResult"] toObject ["codeExecutionResult"]
  let toObject := copyField fromObject ["executableCode"] toObject ["executableCode"]
  let toObject := copyField fromObject ["fileData"] toObject ["fileData"]
  let toObject := copyField fromObject ["functionCall"] toObject ["functionCall"]
  let toObject := copyField fromObject ["functionResponse"] toObject ["functionResponse"]
  let toObject := copyField fromObject ["inlineData"] toObject ["inlineData"]
  let toObject := copyField fromObject ["text"] toObject ["text"]
  .ok (toObject, parentObject)

def partFromVertex (fromObject parentObject : JObj) : Except String (JObj × JObj) := do
  let toObject : JObj := []
  let toObject := copyField fromObject ["videoMetadata"] toObject ["videoMetadata"]
  let toObject := copyField fromObject ["codeExecutionResult"] toObject ["codeExecutionResult"]
  let toObject := copyField fromObject ["executableCode"] toObject ["executableCode"]
  let toObject := copyField fromObject ["fileData"] toObject ["fileData"]
  let toObject := copyField fromObject ["functionCall"] toObject ["functionCall"]
  let toObject := copyField fromObject ["functionResponse"] toObject ["functionResponse"]
  let toObject := copyField fromObject ["inlineData"] toObject ["inlineData"]
  let toObject := copyField fromObject ["text"] toObject ["text"]
  .ok (toObject, parentObject)

def contentFromMldev (fromObject parentObject : JObj) : Except String (JObj × JObj) := do
  let toObject : JObj := []
  let toObject ← convertSliceField partFromMldev fromObject "parts" toObject ["parts"]
  let toObject := copyField fromObject ["role"] toObject ["role"]
  .ok (toObject, parentObject)

def contentFromVertex (fromObject parentObject : JObj) : Except String (JObj × JObj) := do
  let toObject : JObj := []
  let toObject ← convertSliceField partFromVertex fromObject "parts" toObject ["parts"]
  let toObject := copyField fromObject ["role"] toObject ["role"]
  .ok (toObject, parentObject)

def liveServerContentFromMldev (fromObject parentObject : JObj) :
    Except String (JObj × JObj) := do
  let toObject : JObj := []
  let toObject ← convertObjField contentFromMldev fromObject "modelTurn"
    toObject ["modelTurn"]
  let toObject := copyField fromObject ["turnComplete"] toObject ["turnComplete"]
  let toObject := copyField fromObject ["interrupted"] toObject ["interrupted"]
  .ok (toObject, parentObject)

def liveServerContentFromVertex (fromObject parentObject : JObj) :
    Except String (JObj × JObj) := do
  let toObject : JObj := []
  let toObject ← convertObjField contentFromVertex fromObject "modelTurn"
    toObject ["modelTurn"]
  let toObject := copyField fromObject ["turnComplete"] toObject ["turnComplete"]
  let toObject := copyField fromObject ["interrupted"] toObject ["interrupted"]
  .ok (toObject, parentObject)

def functionCallFromMldev (fromObject parentObject : JObj) :
    Except String (JObj × JObj) := do
  let toObject : JObj := []
  let toObject := copyField fromObject ["id"] toObject ["id"]
  let toObject := copyField fromObject ["args"] toObject ["args"]
  let toObject := copyField fromObject ["name"] toObject ["name"]
  .ok (toObject, parentObject)

def functionCallFromVertex (fromObject parentObject : JObj) :
    Except String (JObj × JObj) := do
  let toObject : JObj := []
  let toObject := copyField fromObject ["args"] toObject ["args"]
  let toObject := copyField fromObject ["name"] toObject ["name"]
  .ok (toObject, parentObject)

def liveServerToolCallFromMldev (fromObject parentObject : JObj) :
    Except String (JObj × JObj) := do
  let toObject : JObj := []
  let toObject ← convertSliceField functionCallFromMldev fromObject
    "functionCalls" toObject ["functionCalls"]
  .ok (toObject, parentObject)

def liveServerToolCallFromVertex (fromObject parentObject : JObj) :
    Except String (JObj × JObj) := do
  let toObject : JObj := []
  let toObject ← convertSliceField functionCallFromVertex fromObject
    "functionCalls" toObject ["functionCalls"]
  .ok (toObject, parentObject)

def liveServerToolCallCancellationFromMldev (fromObject parentObject : JObj) :
    Except String (JObj × JObj) := do
  let toObject : JObj := []
  let toObject := copyField fromObject ["ids"] toObject ["ids"]
  .ok (toObject, parentObject)

def liveServerToolCallCancellationFromVertex (fromObject parentObject : JObj) :
    Except String (JObj × JObj) := do
  let toObject : JObj := []
  let toObject := copyField fromObject ["ids"] toObject ["ids"]
  .ok (toObject, parentObject)

def liveServerMessageFromMldev (fromObject parentObject : JObj) :
    Except String (JObj × JObj) := do
  let toObject : JObj := []
  let toObject ← convertObjField liveServerSetupCompleteFromMldev fromObject
    "setupComplete" toObject ["setupComplete"]
  let toObject ← convertObjField liveServerContentFromMldev fromObject
    "serverContent" toObject ["serverContent"]
  let toObject ← convertObjField liveServerToolCallFromMldev fromObject
    "toolCall" toObject ["toolCall"]
  let toObject ← convertObjField liveServerToolCallCancellationFromMldev fromObject
    "toolCallCancellation" toObject ["toolCallCancellation"]
  .ok (toObject, parentObject)

def liveServerMessageFromVertex (fromObject parentObject : JObj) :
    Except String (JObj × JObj) := do
  let toObject : JObj := []
  let toObject ← convertObjField liveServerSetupCompleteFromVertex fromObject
    "setupComplete" toObject ["setupComplete"]
  let toObject ← convertObjField liveServerContentFromVertex fromObject
    "serverContent" toObject ["serverContent"]
  let toObject ← convertObjField liveServerToolCallFromVertex fromObject
    "toolCall" toObject ["toolCall"]
  let toObject ← convertObjField liveServerToolCallCancellationFromVertex fromObject
    "toolCallCancellation" toObject ["toolCallCancellation"]
  .ok (toObject, parentObject)

/-! ### Realtime session (Live.Connect / Session.Send / Session.Receive)

The websocket is modelled by its observable interaction: the trace of
write and read operations the code performs, and the list of frames the
server will deliver (a read failure or an unparseable frame is an
Except.error entry).  Dialing is an oracle (none = dial failure); the
bearer-token fetch of the Vertex backend is an oracle as well.  The typed
LiveClientMessage is a record of its four optional payloads, and
deepMarshal of the struct is the document holding exactly the populated
fields (a nil config pointer marshals to a JSON null, which
getValueByPath treats as absent, so it is omitted).  mapToStruct of the
received message is modelled as the converted document itself. -/

inductive WSEvent where
  | write (frame : JObj) : WSEvent
  | read : WSEvent

structure LiveClientMessage where
  setup : Option JObj
  clientContent : Option JObj
  realtimeInput : Option JObj
  toolResponse : Option JObj

/-- deepMarshal of a LiveClientMessage: the document of its populated
fields, in struct field order. -/
def marshalLiveClientMessage (m : LiveClientMessage) : JObj :=
  (match m.setup with | some v => [("setup", GoVal.obj v)] | none => []) ++
  (match m.clientContent with | some v => [("clientContent", GoVal.obj v)] | none => []) ++
  (match m.realtimeInput with | some v => [("realtimeInput", GoVal.obj v)] | none => []) ++
  (match m.toolResponse with | some v => [("toolResponse", GoVal.obj v)] | none => [])

/-- Go delete(m, k). -/
def jdelete (o : JObj) (k : String) : JObj :=
  o.filter (fun p => p.1 ≠ k)

/-- Session.Send from the source: a populated Setup field is rejected
before anything is written; otherwise the message is converted by the
backend's client-message converter, the helper "input" key is deleted, and
exactly one frame is written. -/
def sessionSend (be : Backend) (input : LiveClientMessage) :
    List WSEvent × Except String Unit :=
  if input.setup.isSome then
    ([], .error "message SetUp is not supported in Send(). Use Connect() instead")
  else
    let parameterMap : JObj := [("input", GoVal.obj (marshalLiveClientMessage input))]
    let conv :=
      match be with
      | .vertexAI => liveSendParametersToVertex
      | .googleAI => liveSendParametersToMldev
    match conv parameterMap [] with
    | .error e => ([], .error e)
    | .ok (body, _) => ([.write (jdelete body "input")], .ok ())

/-- Session.Receive from the source, on the next delivered frame (none:
the blocking read itself fails): surfaces a read failure, then a top-level
error field, then a converter failure; otherwise the converted message. -/
def sessionReceive (be : Backend) (r : Option (Except String JObj)) :
    Except String JObj :=
  match r with
  | none => .error "read failed"
  | some (.error e) => .error e
  | some (.ok msg) =>
      if (denull (jget msg "error")).isSome then
        .error "received error in response"
      else
        let fromConv :=
          match be with
          | .vertexAI => liveServerMessageFromVertex
          | .googleAI => liveServerMessageFromMldev
        match fromConv msg [] with
        | .error e => .error e
        | .ok (out, _) => .ok out

/-- The part of Live.Connect before any websocket write: token fetch (Vertex
backend only), dial, model-name normalization, marshalling and the
backend's connect-parameters converter, in source order; produces the setup
frame to be written.  The URL/scheme computation has no failure mode that
the claims concern and is not modelled. -/
def liveConnectBody (be : Backend) (ac : ApiConfig) (token : Except String String)
    (dial : Option Unit) (model : String) (config : Option JObj) :
    Except String JObj := do
  let _ ← (if be = .vertexAI then
      match token with
      | .error e => (.error ("failed to get token: " ++ e) : Except String Unit)
      | .ok _ => .ok ()
    else .ok ())
  let _ ← (match dial with
    | none => (.error "Connect failed" : Except String Unit)
    | some _ => .ok ())
  let name ←
    match tModelFullName ac model with
    | .error e => (.error e : Except String String)
    | .ok n => .ok n
  let parameterMap : JObj := ("model", GoVal.str name) ::
    (match config with | some c => [("config", GoVal.obj c)] | none => [])
  let conv :=
    match be with
    | .vertexAI => liveConnectParametersToVertex
    | .googleAI => liveConnectParametersToMldev
  let (body, _) ← conv parameterMap []
  .ok (jdelete body "config")

/-- Live.Connect from the source: on success the trace is exactly one write
of the setup frame followed by exactly one blocking read of the setup
confirmation; any failure returns an error and no session. -/
def liveConnect (be : Backend) (ac : ApiConfig) (token : Except String String)
    (dial : Option Unit) (incoming : List (Except String JObj)) (model : String)
    (config : Option JObj) : List WSEvent × Except String Unit :=
  match liveConnectBody be ac token dial model config with
  | .error e => ([], .error e)
  | .ok body =>
      match sessionReceive be incoming.head? with
      | .error e =>
          ([.write body, .read], .error ("failed to connect to the server: " ++ e))
      | .ok _ => ([.write body, .read], .ok ())

/-! ### Claim C6: session setup precondition -/

/-- C6: Session.Send on a message with a populated Setup field fails
immediately with no websocket write; a successful Live.Connect performs
exactly one write (the setup frame) followed by exactly one blocking read
before returning the session; a dial failure or a token failure aborts
with an error, before anything is written or read, with no open session. -/
theorem claim_C6_session_setup :
    (∀ (be : Backend) (input : LiveClientMessage), input.setup.isSome →
        sessionSend be input =
          ([], .error "message SetUp is not supported in Send(). Use Connect() instead")) ∧
    (∀ (be : Backend) (ac : ApiConfig) (token : Except String String)
        (dial : Option Unit) (incoming : List (Except String JObj))
        (model : String) (config : Option JObj),
        (liveConnect be ac token dial incoming model config).2 = .ok () →
        ∃ frame, liveConnect be ac token dial incoming model config =
          ([.write frame, .read], .ok ())) ∧
    (∀ (be : Backend) (ac : ApiConfig) (token : Except String String)
        (incoming : List (Except String JObj)) (model : String)
        (config : Option JObj),
        ∃ e, liveConnect be ac token none incoming model config = ([], .error e)) ∧
    (∀ (ac : ApiConfig) (t : String) (dial : Option Unit)
        (incoming : List (Except String JObj)) (model : String)
        (config : Option JObj),
        liveConnect .vertexAI ac (.error t) dial incoming model config =
          ([], .error ("failed to get token: " ++ t))) := by
  refine ⟨?_, ?_, ?_, ?_⟩
  · intro be input hs
    simp [sessionSend, hs]
  · intro be ac token dial incoming model config h
    unfold liveConnect at h ⊢
    cases hb : liveConnectBody be ac token dial model config with
    | error e => rw [hb] at h; simp at h
    | ok body =>
        rw [hb] at h
        cases hr : sessionReceive be incoming.head? with
        | error e => rw [hr] at h; simp at h
        | ok m => exact ⟨body, rfl⟩
  · intro be ac token incoming model config
    cases be with
    | vertexAI =>
        cases token with
        | error t => exact ⟨_, rfl⟩
        | ok tok => exact ⟨_, rfl⟩
    | googleAI => exact ⟨_, rfl⟩
  · intro ac t dial incoming model config
    rfl

theorem claim_C6_witness :
    sessionSend .googleAI ⟨some [("model", .str "m")], none, none, none⟩ =
      ([], .error "message SetUp is not supported in Send(). Use Connect() instead") ∧
    (∃ frame, liveConnect .googleAI ⟨.googleAI, "", ""⟩ (.ok "") (some ())
        [.ok [("setupComplete", .obj [])]] "test-model" none =
      ([.write frame, .read], .ok ())) ∧
    (∃ e, liveConnect .googleAI ⟨.googleAI, "", ""⟩ (.ok "") none
        [] "test-model" none = ([], .error e)) :=
  ⟨claim_C6_session_setup.1 .googleAI _ rfl,
   claim_C6_session_setup.2.1 .googleAI ⟨.googleAI, "", ""⟩ (.ok "") (some ())
     [.ok [("setupComplete", .obj [])]] "test-model" none rfl,
   claim_C6_session_setup.2.2.1 .googleAI ⟨.googleAI, "", ""⟩ (.ok "")
     [] "test-model" none⟩

end GoGenAI
